import Mathlib

/-!
Verification development for the csecu-data repository: a two-step pipeline
that turns tabular mental-health rows into an RDF graph
(`generate_snowflake_ttl.py`) and benchmarks four SPARQL queries over it
(`QueryBenchmark.py`).  The Python code is shallowly embedded below: rows,
triples and graphs are explicit data, the per-dimension id maps are
association lists, and the subsampler's string tests are modelled on the
actual rendered URI strings.
-/

set_option maxHeartbeats 2000000

namespace AddictionNexus

/-- Decimal digit character, as Python string formatting renders the digits
of a nonnegative integer. -/
def digitChar : Nat → Char
  | 0 => '0'
  | 1 => '1'
  | 2 => '2'
  | 3 => '3'
  | 4 => '4'
  | 5 => '5'
  | 6 => '6'
  | 7 => '7'
  | 8 => '8'
  | _ => '9'

/-- Numeric value of a digit character. -/
def digitVal (c : Char) : Nat := c.toNat - 48

/-- Decimal rendering of a natural number, as a Python f-string renders an
integer id (most significant digit first). -/
def natDigits (n : Nat) : List Char :=
  if _h : n < 10 then [digitChar n]
  else natDigits (n / 10) ++ [digitChar (n % 10)]
  termination_by n
  decreasing_by exact Nat.div_lt_self (by omega) (by omega)

/-- Value of a digit string, as Python `int` reads a string of decimal
digits. -/
def digitsVal (l : List Char) : Nat :=
  l.foldl (fun a c => 10 * a + digitVal c) 0

theorem digitChar_toNat (d : Nat) :
    48 ≤ (digitChar d).toNat ∧ (digitChar d).toNat ≤ 57 := by
  rcases d with _|_|_|_|_|_|_|_|_|_ <;> simp [digitChar]

theorem digitVal_digitChar {d : Nat} (h : d < 10) :
    digitVal (digitChar d) = d := by
  rcases d with _|_|_|_|_|_|_|_|_|d
  · rfl
  · rfl
  · rfl
  · rfl
  · rfl
  · rfl
  · rfl
  · rfl
  · rfl
  · rcases d with _|d
    · rfl
    · omega

theorem natDigits_ne_nil (n : Nat) : natDigits n ≠ [] := by
  rw [natDigits]
  split <;> simp

theorem mem_natDigits (n : Nat) :
    ∀ c ∈ natDigits n, ∃ d, d < 10 ∧ c = digitChar d := by
  induction n using Nat.strong_induction_on with
  | _ n ih =>
    rw [natDigits]
    split
    · intro c hc
      simp at hc
      exact ⟨n, by omega, hc⟩
    · intro c hc
      simp at hc
      rcases hc with hc | hc
      · exact ih (n / 10) (Nat.div_lt_self (by omega) (by omega)) c hc
      · exact ⟨n % 10, Nat.mod_lt _ (by omega), hc⟩

theorem natDigits_toNat_bounds (n : Nat) :
    ∀ c ∈ natDigits n, 48 ≤ c.toNat ∧ c.toNat ≤ 57 := by
  intro c hc
  obtain ⟨d, _, rfl⟩ := mem_natDigits n c hc
  exact digitChar_toNat d

theorem slash_not_mem_natDigits (n : Nat) : '/' ∉ natDigits n := by
  intro h
  have := natDigits_toNat_bounds n _ h
  exact absurd this (by decide)

theorem digitsVal_append (l : List Char) (c : Char) :
    digitsVal (l ++ [c]) = 10 * digitsVal l + digitVal c := by
  simp [digitsVal]

theorem digitsVal_natDigits (n : Nat) : digitsVal (natDigits n) = n := by
  induction n using Nat.strong_induction_on with
  | _ n ih =>
    rw [natDigits]
    split
    · next h =>
      simp [digitsVal, digitVal_digitChar h]
    · next h =>
      rw [digitsVal_append, ih (n / 10) (Nat.div_lt_self (by omega) (by omega)),
        digitVal_digitChar (Nat.mod_lt _ (by omega))]
      omega

/-- Python substring test `needle in hay`, on strings viewed as character
lists. -/
def pyIn (pat hay : List Char) : Bool := decide (pat <:+: hay)

/-- Model of Python `s.split(sep)[-1]` for `sep = '/'`: the field after the
last slash. -/
def lastField (l : List Char) : List Char :=
  l.foldl (fun acc c => if c = '/' then [] else acc ++ [c]) []

theorem lastField_foldl_no_slash (b : List Char) (hb : '/' ∉ b) :
    ∀ acc, b.foldl (fun acc c => if c = '/' then [] else acc ++ [c]) acc
      = acc ++ b := by
  induction b with
  | nil => intro acc; simp
  | cons c cs ih =>
    intro acc
    simp only [List.mem_cons, not_or] at hb
    rw [List.foldl_cons, if_neg (fun h => hb.1 h.symm), ih hb.2,
      List.append_assoc, List.singleton_append]

theorem lastField_append_no_slash (a b : List Char) (hb : '/' ∉ b) :
    lastField (a ++ b) = lastField a ++ b := by
  unfold lastField
  rw [List.foldl_append, lastField_foldl_no_slash b hb]

/-- Helper for the subsampler's id extraction: value of the last
slash-separated field, as `int(str(s).split(sep)[-1])` computes it. -/
def lastFieldVal (l : List Char) : Nat := digitsVal (lastField l)

theorem isInfix_append_right {α : Type} (pat a b : List α) (h : pat <:+: a) :
    pat <:+: a ++ b := by
  obtain ⟨s, t, rfl⟩ := h
  exact ⟨s, t ++ b, by simp⟩

/-- Boundary lemma: a pattern whose last character cannot occur in the suffix
`b` occurs in `a ++ b` exactly when it occurs in `a`.  This is what makes the
subsampler's substring tests insensitive to the appended decimal id. -/
theorem isInfix_append_iff_of_getLast {pat a b : List Char} {ch : Char}
    (hlast : pat.getLast? = some ch) (hb : ch ∉ b) :
    pat <:+: a ++ b ↔ pat <:+: a := by
  constructor
  · rintro ⟨u, v, huv⟩
    have hne : pat ≠ [] := by
      intro h
      rw [h] at hlast
      exact Option.noConfusion hlast
    have hwpre : u ++ pat <+: a ++ b := ⟨v, by simp [← huv]⟩
    have hwne : u ++ pat ≠ [] := by simp [hne]
    have hwlast : (u ++ pat).getLast? = some ch := by
      rw [List.getLast?_append_of_ne_nil u hne, hlast]
    have hlen : (u ++ pat).length ≤ a.length := by
      by_contra hgt
      push_neg at hgt
      have hidx : (u ++ pat).length - 1 < (a ++ b).length := by
        have := hwpre.length_le
        have : 0 < (u ++ pat).length := List.length_pos.mpr hwne
        omega
      have h1 : (u ++ pat).length - 1 < (u ++ pat).length := by
        have : 0 < (u ++ pat).length := List.length_pos.mpr hwne
        omega
      have hval : (a ++ b).get ⟨(u ++ pat).length - 1, hidx⟩ = ch := by
        have h2 : (a ++ b).get ⟨(u ++ pat).length - 1, hidx⟩
            = (u ++ pat).get ⟨(u ++ pat).length - 1, h1⟩ := by
          simp only [List.get_eq_getElem]
          exact (hwpre.getElem h1).symm
        rw [h2]
        rw [List.getLast?_eq_getLast _ hwne] at hwlast
        have h3 := List.getLast_eq_getElem (u ++ pat) hwne
        simp only [Option.some.injEq] at hwlast
        simp only [List.get_eq_getElem]
        rw [← hwlast, h3]
      have hge : a.length ≤ (u ++ pat).length - 1 := by
        have hwl : (u ++ pat).length = u.length + pat.length := by simp
        have hpl : 0 < pat.length := List.length_pos.mpr hne
        omega
      have hmem : ch ∈ b := by
        simp only [List.get_eq_getElem] at hval
        rw [List.getElem_append_right hge] at hval
        rw [← hval]
        exact List.getElem_mem _
      exact hb hmem
    have hprea : u ++ pat <+: a :=
      List.prefix_of_prefix_length_le hwpre (List.prefix_append a b) hlen
    obtain ⟨t, ht⟩ := hprea
    exact ⟨u, t, by simp [← ht]⟩
  · exact isInfix_append_right pat a b

/-- Specialization of the boundary lemma to a pattern ending in a slash and a
decimal-digit suffix, phrased on the Boolean `pyIn`. -/
theorem pyIn_append_natDigits (pat a : List Char) (n : Nat)
    (hlast : pat.getLast? = some '/') :
    pyIn pat (a ++ natDigits n) = pyIn pat a :=
  decide_eq_decide.mpr
    (isInfix_append_iff_of_getLast hlast (slash_not_mem_natDigits n))

theorem lastFieldVal_fix_digits (fix : List Char) (n : Nat)
    (hfix : lastField fix = []) :
    lastFieldVal (fix ++ natDigits n) = n := by
  unfold lastFieldVal
  rw [lastField_append_no_slash fix _ (slash_not_mem_natDigits n), hfix,
    List.nil_append, digitsVal_natDigits]

/-- Vocabulary resources: the classes and properties declared by the TBox of
`generate_snowflake_ttl.py`, plus the external OWL/XSD/QB/SKOS terms the TBox
mentions. -/
inductive Voc
  | Person
  | MentalHealth
  | Lifestyle
  | Gender
  | Occupation
  | Country
  | Severity
  | Consultation
  | StressLevel
  | Medication
  | DietQuality
  | SmokingHabit
  | AlcoholConsumption
  | Measurement
  | CountryHierarchy
  | SeverityHierarchy
  | hasAge
  | hasGender
  | hasOccupation
  | hasCountry
  | hasMentalHealth
  | hasSeverity
  | hasConsultationHistory
  | hasStressLevel
  | hasMedicationUsage
  | hasLifestyle
  | hasDietQuality
  | hasSmokingHabit
  | hasAlcoholConsumption
  | hasSleepHours
  | hasWorkHours
  | hasPhysicalActivityHours
  | hasSocialMediaUsage
  | exHasMeasurement
  | owlClass
  | owlDatatypeProperty
  | owlObjectProperty
  | qbDataStructureDefinition
  | skosConceptScheme
  | xsdInteger
  | xsdFloat
deriving DecidableEq

/-- Wikidata entities appearing in the scripts (`WD.P17` in the TBox and the
`country_wd_map` values in the ABox builder). -/
inductive Wd
  | wP17
  | wQ408
  | wQ30
  | wQ668
  | wQ145
  | wQ16
  | wQ183
deriving DecidableEq

/-- URIs minted by the pipeline: per-row and per-dimension instance URIs of
the form `mh:kind/<id>` built by f-strings in `generate_snowflake_ttl.py`,
plus vocabulary and Wikidata URIs. -/
inductive Uri
  | user (n : Nat)
  | gender (n : Nat)
  | occupation (n : Nat)
  | country (n : Nat)
  | severity (n : Nat)
  | consultation (n : Nat)
  | stress (n : Nat)
  | medication (n : Nat)
  | diet (n : Nat)
  | smoking (n : Nat)
  | alcohol (n : Nat)
  | mentalHealth (n : Nat)
  | lifestyle (n : Nat)
  | measurement (n : Nat)
  | voc (v : Voc)
  | wde (w : Wd)
deriving DecidableEq

/-- Full URI string of a vocabulary term. -/
def vocStr : Voc → List Char
  | .Person => "http://example.org/mental_health#Person".data
  | .MentalHealth => "http://example.org/mental_health#MentalHealth".data
  | .Lifestyle => "http://example.org/mental_health#Lifestyle".data
  | .Gender => "http://example.org/mental_health#Gender".data
  | .Occupation => "http://example.org/mental_health#Occupation".data
  | .Country => "http://example.org/mental_health#Country".data
  | .Severity => "http://example.org/mental_health#Severity".data
  | .Consultation => "http://example.org/mental_health#Consultation".data
  | .StressLevel => "http://example.org/mental_health#StressLevel".data
  | .Medication => "http://example.org/mental_health#Medication".data
  | .DietQuality => "http://example.org/mental_health#DietQuality".data
  | .SmokingHabit => "http://example.org/mental_health#SmokingHabit".data
  | .AlcoholConsumption => "http://example.org/mental_health#AlcoholConsumption".data
  | .Measurement => "http://example.org/mental_health#Measurement".data
  | .CountryHierarchy => "http://example.org/mental_health#CountryHierarchy".data
  | .SeverityHierarchy => "http://example.org/mental_health#SeverityHierarchy".data
  | .hasAge => "http://example.org/mental_health#hasAge".data
  | .hasGender => "http://example.org/mental_health#hasGender".data
  | .hasOccupation => "http://example.org/mental_health#hasOccupation".data
  | .hasCountry => "http://example.org/mental_health#hasCountry".data
  | .hasMentalHealth => "http://example.org/mental_health#hasMentalHealth".data
  | .hasSeverity => "http://example.org/mental_health#hasSeverity".data
  | .hasConsultationHistory => "http://example.org/mental_health#hasConsultationHistory".data
  | .hasStressLevel => "http://example.org/mental_health#hasStressLevel".data
  | .hasMedicationUsage => "http://example.org/mental_health#hasMedicationUsage".data
  | .hasLifestyle => "http://example.org/mental_health#hasLifestyle".data
  | .hasDietQuality => "http://example.org/mental_health#hasDietQuality".data
  | .hasSmokingHabit => "http://example.org/mental_health#hasSmokingHabit".data
  | .hasAlcoholConsumption => "http://example.org/mental_health#hasAlcoholConsumption".data
  | .hasSleepHours => "http://example.org/mental_health#hasSleepHours".data
  | .hasWorkHours => "http://example.org/mental_health#hasWorkHours".data
  | .hasPhysicalActivityHours => "http://example.org/mental_health#hasPhysicalActivityHours".data
  | .hasSocialMediaUsage => "http://example.org/mental_health#hasSocialMediaUsage".data
  | .exHasMeasurement => "http://example.org/ontology#hasMeasurement".data
  | .owlClass => "http://www.w3.org/2002/07/owl#Class".data
  | .owlDatatypeProperty => "http://www.w3.org/2002/07/owl#DatatypeProperty".data
  | .owlObjectProperty => "http://www.w3.org/2002/07/owl#ObjectProperty".data
  | .qbDataStructureDefinition => "http://purl.org/linked-data/cube#DataStructureDefinition".data
  | .skosConceptScheme => "http://www.w3.org/2004/02/skos/core#ConceptScheme".data
  | .xsdInteger => "http://www.w3.org/2001/XMLSchema#integer".data
  | .xsdFloat => "http://www.w3.org/2001/XMLSchema#float".data

/-- Full URI string of a Wikidata entity. -/
def wdStr : Wd → List Char
  | .wP17 => "http://www.wikidata.org/entity/P17".data
  | .wQ408 => "http://www.wikidata.org/entity/Q408".data
  | .wQ30 => "http://www.wikidata.org/entity/Q30".data
  | .wQ668 => "http://www.wikidata.org/entity/Q668".data
  | .wQ145 => "http://www.wikidata.org/entity/Q145".data
  | .wQ16 => "http://www.wikidata.org/entity/Q16".data
  | .wQ183 => "http://www.wikidata.org/entity/Q183".data

/-- Rendered URI string (`str(s)` on an rdflib URIRef), as built by the
f-strings of `generate_snowflake_ttl.py`. -/
def uriStr : Uri → List Char
  | .user n => "http://example.org/mental_health#user/".data ++ natDigits n
  | .gender n => "http://example.org/mental_health#gender/".data ++ natDigits n
  | .occupation n => "http://example.org/mental_health#occupation/".data ++ natDigits n
  | .country n => "http://example.org/mental_health#country/".data ++ natDigits n
  | .severity n => "http://example.org/mental_health#severity/".data ++ natDigits n
  | .consultation n => "http://example.org/mental_health#consultation/".data ++ natDigits n
  | .stress n => "http://example.org/mental_health#stress/".data ++ natDigits n
  | .medication n => "http://example.org/mental_health#medication/".data ++ natDigits n
  | .diet n => "http://example.org/mental_health#diet/".data ++ natDigits n
  | .smoking n => "http://example.org/mental_health#smoking/".data ++ natDigits n
  | .alcohol n => "http://example.org/mental_health#alcohol/".data ++ natDigits n
  | .mentalHealth n => "http://example.org/mental_health#mental_health/".data ++ natDigits n
  | .lifestyle n => "http://example.org/mental_health#lifestyle/".data ++ natDigits n
  | .measurement n => "http://example.org/mental_health#measurement/".data ++ natDigits n
  | .voc v => vocStr v
  | .wde w => wdStr w

/-- Predicates (property URIs in predicate position) used by the two
scripts. -/
inductive Pred
  | rdfType
  | rdfsLabel
  | rdfsComment
  | rdfsDomain
  | rdfsRange
  | owlEquivalentProperty
  | owlSameAs
  | skosInScheme
  | skosPrefLabel
  | qbMeasure
  | hasAge
  | hasGender
  | hasOccupation
  | hasCountry
  | hasMentalHealth
  | hasSeverity
  | hasConsultationHistory
  | hasStressLevel
  | hasMedicationUsage
  | hasLifestyle
  | hasDietQuality
  | hasSmokingHabit
  | hasAlcoholConsumption
  | hasSleepHours
  | hasWorkHours
  | hasPhysicalActivityHours
  | hasSocialMediaUsage
  | exHasMeasurement
deriving DecidableEq

/-- Declared datatype of a typed literal (the two XSD datatypes the generator
uses). -/
inductive LDt
  | xint
  | xfloat
deriving DecidableEq

/-- RDF literals as the pipeline produces them.  Modelled from the spec: the
external RDF library's literal constructor never raises; a lexical value that
does not match the declared datatype is kept as an ill-typed literal (its
lexical form with the declared datatype, no converted value). -/
inductive Lit
  | typedInt (n : Int)
  | typedFloat (q : Rat)
  | plain (s : String)
  | lang (s : String) (tag : String)
  | ill (lex : String) (dt : LDt)
deriving DecidableEq

/-- Objects of triples: URIs, literals, or blank nodes (the generator never
mints a blank node; the constructor exists so that absence is provable). -/
inductive Obj
  | u (x : Uri)
  | lit (l : Lit)
  | bnode (n : Nat)
deriving DecidableEq

/-- An RDF triple. -/
structure Triple where
  s : Uri
  p : Pred
  o : Obj
deriving DecidableEq

/-- The `elif` condition of `create_subsampled_graph`: one of the ten
dimension prefixes occurs in the subject's URI string. -/
def dimHit (cs : List Char) : Bool :=
  pyIn "gender/".data cs || pyIn "occupation/".data cs || pyIn "country/".data cs
    || pyIn "severity/".data cs || pyIn "consultation/".data cs
    || pyIn "stress/".data cs || pyIn "medication/".data cs
    || pyIn "diet/".data cs || pyIn "smoking/".data cs || pyIn "alcohol/".data cs

/-- Subject test of `create_subsampled_graph`: keep a triple if `"user/"`
occurs in the subject string and the trailing id is at most the threshold,
else if some dimension prefix occurs in the subject string. -/
def keepUri (max_user_id : Nat) (s : Uri) : Bool :=
  if pyIn "user/".data (uriStr s)
      && decide (lastFieldVal (uriStr s) ≤ max_user_id) then true
  else if dimHit (uriStr s) then true
  else false

/-- Structural restatement of the subsampler's retention policy, written from
the spec's words: Person subjects with row id at most the threshold, and all
ten dimension-entity subjects unconditionally. -/
def specKeepUri (max_user_id : Nat) : Uri → Bool
  | .user n => decide (n ≤ max_user_id)
  | .gender _ => true
  | .occupation _ => true
  | .country _ => true
  | .severity _ => true
  | .consultation _ => true
  | .stress _ => true
  | .medication _ => true
  | .diet _ => true
  | .smoking _ => true
  | .alcohol _ => true
  | _ => false

theorem keepUri_of_not_user (T : Nat) (s : Uri)
    (h : pyIn "user/".data (uriStr s) = false) :
    keepUri T s = dimHit (uriStr s) := by
  unfold keepUri
  rw [h]
  cases hdim : dimHit (uriStr s) <;> simp [hdim]

theorem keepUri_eq_specKeepUri (T : Nat) (s : Uri) :
    keepUri T s = specKeepUri T s := by
  cases s
  case user n =>
    simp only [keepUri, specKeepUri, uriStr]
    rw [pyIn_append_natDigits _ _ _ (by decide)]
    have hlf := lastFieldVal_fix_digits
      "http://example.org/mental_health#user/".data n (by decide)
    have hdim : dimHit ("http://example.org/mental_health#user/".data
        ++ natDigits n) = false := by
      unfold dimHit
      repeat rw [pyIn_append_natDigits _ _ _ (by decide)]
      decide
    simp only [hlf, hdim]
    cases hd : decide (n ≤ T) <;> decide
  case gender n =>
    rw [keepUri_of_not_user _ _ (by
      simp only [uriStr]
      rw [pyIn_append_natDigits _ _ _ (by decide)]
      decide)]
    simp only [specKeepUri, uriStr]
    unfold dimHit
    repeat rw [pyIn_append_natDigits _ _ _ (by decide)]
    decide
  case occupation n =>
    rw [keepUri_of_not_user _ _ (by
      simp only [uriStr]
      rw [pyIn_append_natDigits _ _ _ (by decide)]
      decide)]
    simp only [specKeepUri, uriStr]
    unfold dimHit
    repeat rw [pyIn_append_natDigits _ _ _ (by decide)]
    decide
  case country n =>
    rw [keepUri_of_not_user _ _ (by
      simp only [uriStr]
      rw [pyIn_append_natDigits _ _ _ (by decide)]
      decide)]
    simp only [specKeepUri, uriStr]
    unfold dimHit
    repeat rw [pyIn_append_natDigits _ _ _ (by decide)]
    decide
  case severity n =>
    rw [keepUri_of_not_user _ _ (by
      simp only [uriStr]
      rw [pyIn_append_natDigits _ _ _ (by decide)]
      decide)]
    simp only [specKeepUri, uriStr]
    unfold dimHit
    repeat rw [pyIn_append_natDigits _ _ _ (by decide)]
    decide
  case consultation n =>
    rw [keepUri_of_not_user _ _ (by
      simp only [uriStr]
      rw [pyIn_append_natDigits _ _ _ (by decide)]
      decide)]
    simp only [specKeepUri, uriStr]
    unfold dimHit
    repeat rw [pyIn_append_natDigits _ _ _ (by decide)]
    decide
  case stress n =>
    rw [keepUri_of_not_user _ _ (by
      simp only [uriStr]
      rw [pyIn_append_natDigits _ _ _ (by decide)]
      decide)]
    simp only [specKeepUri, uriStr]
    unfold dimHit
    repeat rw [pyIn_append_natDigits _ _ _ (by decide)]
    decide
  case medication n =>
    rw [keepUri_of_not_user _ _ (by
      simp only [uriStr]
      rw [pyIn_append_natDigits _ _ _ (by decide)]
      decide)]
    simp only [specKeepUri, uriStr]
    unfold dimHit
    repeat rw [pyIn_append_natDigits _ _ _ (by decide)]
    decide
  case diet n =>
    rw [keepUri_of_not_user _ _ (by
      simp only [uriStr]
      rw [pyIn_append_natDigits _ _ _ (by decide)]
      decide)]
    simp only [specKeepUri, uriStr]
    unfold dimHit
    repeat rw [pyIn_append_natDigits _ _ _ (by decide)]
    decide
  case smoking n =>
    rw [keepUri_of_not_user _ _ (by
      simp only [uriStr]
      rw [pyIn_append_natDigits _ _ _ (by decide)]
      decide)]
    simp only [specKeepUri, uriStr]
    unfold dimHit
    repeat rw [pyIn_append_natDigits _ _ _ (by decide)]
    decide
  case alcohol n =>
    rw [keepUri_of_not_user _ _ (by
      simp only [uriStr]
      rw [pyIn_append_natDigits _ _ _ (by decide)]
      decide)]
    simp only [specKeepUri, uriStr]
    unfold dimHit
    repeat rw [pyIn_append_natDigits _ _ _ (by decide)]
    decide
  case mentalHealth n =>
    rw [keepUri_of_not_user _ _ (by
      simp only [uriStr]
      rw [pyIn_append_natDigits _ _ _ (by decide)]
      decide)]
    simp only [specKeepUri, uriStr]
    unfold dimHit
    repeat rw [pyIn_append_natDigits _ _ _ (by decide)]
    decide
  case lifestyle n =>
    rw [keepUri_of_not_user _ _ (by
      simp only [uriStr]
      rw [pyIn_append_natDigits _ _ _ (by decide)]
      decide)]
    simp only [specKeepUri, uriStr]
    unfold dimHit
    repeat rw [pyIn_append_natDigits _ _ _ (by decide)]
    decide
  case measurement n =>
    rw [keepUri_of_not_user _ _ (by
      simp only [uriStr]
      rw [pyIn_append_natDigits _ _ _ (by decide)]
      decide)]
    simp only [specKeepUri, uriStr]
    unfold dimHit
    repeat rw [pyIn_append_natDigits _ _ _ (by decide)]
    decide
  case voc v =>
    rw [keepUri_of_not_user _ _ (by cases v <;> decide)]
    cases v <;> simp only [specKeepUri] <;> decide
  case wde w =>
    rw [keepUri_of_not_user _ _ (by cases w <;> decide)]
    cases w <;> simp only [specKeepUri] <;> decide

/-- A raw tabular cell as the dataframe loader delivers it: an integer, a
float, or an uncoerced string. -/
inductive CellVal
  | cint (n : Int)
  | cfloat (q : Rat)
  | cstr (s : String)
deriving DecidableEq

/-- Decimal digit test for cell parsing. -/
def isDigCh (c : Char) : Bool := 48 ≤ c.toNat && c.toNat ≤ 57

/-- Parse a nonempty all-digit character list. -/
def parseDigits? (l : List Char) : Option Nat :=
  if !l.isEmpty && l.all isDigCh then some (digitsVal l) else none

/-- Modelled from the spec: integer reading of a lexical form by the external
RDF library (an optional sign followed by decimal digits). -/
def strAsInt? (s : String) : Option Int :=
  match s.data with
  | '-' :: rest => (parseDigits? rest).map (fun n => -(n : Int))
  | l => (parseDigits? l).map (fun n => (n : Int))

/-- Modelled from the spec: float reading of a lexical form by the external
RDF library (an optional sign, digits, an optional fractional part). -/
def strAsFloat? (s : String) : Option Rat :=
  match s.data with
  | '-' :: rest => (strAsFloatCore rest).map (fun q => -q)
  | l => strAsFloatCore l
where
  strAsFloatCore (l : List Char) : Option Rat :=
    match l.splitOn '.' with
    | [ip] => (parseDigits? ip).map (fun n => (n : Rat))
    | [ip, fp] =>
      match parseDigits? ip, parseDigits? fp with
      | some a, some b => some ((a : Rat) + (b : Rat) / ((10 : Rat) ^ fp.length))
      | _, _ => none
    | _ => none

/-- Fractional digits of a rational in `[0, 1)`, up to a fuel bound. -/
def fracDigits (fuel : Nat) (r : Rat) : List Char :=
  match fuel with
  | 0 => []
  | fuel + 1 =>
    if r = 0 then []
    else digitChar (r * 10).floor.toNat
      :: fracDigits fuel (r * 10 - ((r * 10).floor : Rat))

/-- Decimal lexical form of a rational, as Python renders a float value. -/
def ratLex (q : Rat) : List Char :=
  (if q < 0 then ['-'] else [])
    ++ natDigits (if q < 0 then -q else q).floor.toNat
    ++ '.' :: (if q - (q.floor : Rat) = 0 then ['0']
               else fracDigits 30 ((if q < 0 then -q else q)
                 - ((if q < 0 then -q else q).floor : Rat)))

/-- Modelled from the spec: literal construction by the external RDF library,
as `Literal(value, datatype=...)` behaves.  It never raises: a value whose
lexical form matches the declared datatype becomes a well-typed literal, any
other value is kept as an ill-typed literal carrying its lexical form. -/
def mkLit (v : CellVal) (dt : LDt) : Lit :=
  match dt, v with
  | .xint, .cint n => .typedInt n
  | .xint, .cfloat q => .ill (String.mk (ratLex q)) .xint
  | .xint, .cstr s =>
    match strAsInt? s with
    | some n => .typedInt n
    | none => .ill s .xint
  | .xfloat, .cint n => .typedFloat (n : Rat)
  | .xfloat, .cfloat q => .typedFloat q
  | .xfloat, .cstr s =>
    match strAsFloat? s with
    | some q => .typedFloat q
    | none => .ill s .xfloat

/-- One CSV row, with the columns `generate_snowflake_ttl.py` reads. -/
structure Row where
  User_ID : Nat
  Age : CellVal
  Gender : String
  Occupation : String
  Country : String
  Mental_Health_Condition : String
  Severity : String
  Consultation_History : String
  Stress_Level : String
  Medication_Usage : String
  Diet_Quality : String
  Smoking_Habit : String
  Alcohol_Consumption : String
  Sleep_Hours : CellVal
  Work_Hours : CellVal
  Physical_Activity_Hours : CellVal
  Social_Media_Usage : CellVal
deriving DecidableEq

/-- Mutable state of the ABox generation loop: the graph built so far, the
ten per-dimension id maps, and the two fresh-instance counters. -/
structure GenState where
  graph : List Triple
  gender_map : List (String × Nat)
  occupation_map : List (String × Nat)
  country_map : List (String × Nat)
  severity_map : List (String × Nat)
  consultation_map : List (String × Nat)
  stress_map : List (String × Nat)
  medication_map : List (String × Nat)
  diet_map : List (String × Nat)
  smoking_map : List (String × Nat)
  alcohol_map : List (String × Nat)
  mental_health_counter : Nat
  lifestyle_counter : Nat

/-- Initial generation state: empty graph, empty maps, counters at 1. -/
def initState : GenState :=
  ⟨[], [], [], [], [], [], [], [], [], [], [], 1, 1⟩

/-- Dictionary lookup in an insertion-ordered association list. -/
def lookupA (m : List (String × Nat)) (v : String) : Option Nat :=
  match m with
  | [] => none
  | (k, i) :: rest => if k = v then some i else lookupA rest v

/-- The per-dimension normalization step of the generator: if the value is
absent, bind it to `len(map) + 1`. -/
def dimInsert (m : List (String × Nat)) (v : String) : List (String × Nat) :=
  match lookupA m v with
  | some _ => m
  | none => m ++ [(v, m.length + 1)]

/-- Identifier the generator uses for a value after the insert step
(`map[value]`). -/
def dimId (m : List (String × Nat)) (v : String) : Nat :=
  (lookupA (dimInsert m v) v).getD 0

/-- Triples one dimension occurrence contributes: type and label on first
sight, and always the link from the parent entity. -/
def dimTriples (fresh : Bool) (duri : Uri) (cls : Voc) (v : String)
    (parent : Uri) (link : Pred) : List Triple :=
  (if fresh then
    [⟨duri, .rdfType, .u (.voc cls)⟩, ⟨duri, .skosPrefLabel, .lit (.plain v)⟩]
   else [])
  ++ [⟨parent, link, .u duri⟩]

/-- The hardcoded Wikidata lookup for country names; `Other` maps to `None`
in the source dict and the truthiness test makes that the same as absence. -/
def country_wd_map (v : String) : Option Wd :=
  if v = "Australia" then some .wQ408
  else if v = "USA" then some .wQ30
  else if v = "India" then some .wQ668
  else if v = "UK" then some .wQ145
  else if v = "Canada" then some .wQ16
  else if v = "Germany" then some .wQ183
  else none

/-- Triples a country occurrence contributes: type, label and optional
Wikidata sameAs on first sight, and always the link from the person. -/
def countryTriples (fresh : Bool) (cid : Nat) (v : String) (parent : Uri) :
    List Triple :=
  (if fresh then
    [⟨.country cid, .rdfType, .u (.voc .Country)⟩,
     ⟨.country cid, .skosPrefLabel, .lit (.plain v)⟩]
      ++ (match country_wd_map v with
          | some w => [⟨.country cid, .owlSameAs, .u (.wde w)⟩]
          | none => [])
   else [])
  ++ [⟨parent, .hasCountry, .u (.country cid)⟩]

/-- Triples one loop iteration of the ABox builder adds, in source order,
computed from the state at the start of the iteration. -/
def rowTriples (st : GenState) (r : Row) : List Triple :=
  [⟨.user r.User_ID, .rdfType, .u (.voc .Person)⟩,
   ⟨.user r.User_ID, .hasAge, .lit (mkLit r.Age .xint)⟩]
  ++ dimTriples (lookupA st.gender_map r.Gender).isNone
      (.gender (dimId st.gender_map r.Gender)) .Gender r.Gender
      (.user r.User_ID) .hasGender
  ++ dimTriples (lookupA st.occupation_map r.Occupation).isNone
      (.occupation (dimId st.occupation_map r.Occupation)) .Occupation
      r.Occupation (.user r.User_ID) .hasOccupation
  ++ countryTriples (lookupA st.country_map r.Country).isNone
      (dimId st.country_map r.Country) r.Country (.user r.User_ID)
  ++ [⟨.mentalHealth st.mental_health_counter, .rdfType, .u (.voc .MentalHealth)⟩,
      ⟨.mentalHealth st.mental_health_counter, .rdfsLabel,
        .lit (.plain r.Mental_Health_Condition)⟩,
      ⟨.user r.User_ID, .hasMentalHealth, .u (.mentalHealth st.mental_health_counter)⟩]
  ++ dimTriples (lookupA st.severity_map r.Severity).isNone
      (.severity (dimId st.severity_map r.Severity)) .Severity r.Severity
      (.mentalHealth st.mental_health_counter) .hasSeverity
  ++ dimTriples (lookupA st.consultation_map r.Consultation_History).isNone
      (.consultation (dimId st.consultation_map r.Consultation_History))
      .Consultation r.Consultation_History
      (.mentalHealth st.mental_health_counter) .hasConsultationHistory
  ++ dimTriples (lookupA st.stress_map r.Stress_Level).isNone
      (.stress (dimId st.stress_map r.Stress_Level)) .StressLevel r.Stress_Level
      (.mentalHealth st.mental_health_counter) .hasStressLevel
  ++ dimTriples (lookupA st.medication_map r.Medication_Usage).isNone
      (.medication (dimId st.medication_map r.Medication_Usage)) .Medication
      r.Medication_Usage (.mentalHealth st.mental_health_counter)
      .hasMedicationUsage
  ++ [⟨.lifestyle st.lifestyle_counter, .rdfType, .u (.voc .Lifestyle)⟩,
      ⟨.user r.User_ID, .hasLifestyle, .u (.lifestyle st.lifestyle_counter)⟩]
  ++ dimTriples (lookupA st.diet_map r.Diet_Quality).isNone
      (.diet (dimId st.diet_map r.Diet_Quality)) .DietQuality r.Diet_Quality
      (.lifestyle st.lifestyle_counter) .hasDietQuality
  ++ dimTriples (lookupA st.smoking_map r.Smoking_Habit).isNone
      (.smoking (dimId st.smoking_map r.Smoking_Habit)) .SmokingHabit
      r.Smoking_Habit (.lifestyle st.lifestyle_counter) .hasSmokingHabit
  ++ dimTriples (lookupA st.alcohol_map r.Alcohol_Consumption).isNone
      (.alcohol (dimId st.alcohol_map r.Alcohol_Consumption))
      .AlcoholConsumption r.Alcohol_Consumption
      (.lifestyle st.lifestyle_counter) .hasAlcoholConsumption
  ++ [⟨.measurement r.User_ID, .rdfType, .u (.voc .Measurement)⟩,
      ⟨.measurement r.User_ID, .hasSleepHours, .lit (mkLit r.Sleep_Hours .xfloat)⟩,
      ⟨.measurement r.User_ID, .hasWorkHours, .lit (mkLit r.Work_Hours .xint)⟩,
      ⟨.measurement r.User_ID, .hasPhysicalActivityHours,
        .lit (mkLit r.Physical_Activity_Hours .xint)⟩,
      ⟨.measurement r.User_ID, .hasSocialMediaUsage,
        .lit (mkLit r.Social_Media_Usage .xfloat)⟩,
      ⟨.user r.User_ID, .exHasMeasurement, .u (.measurement r.User_ID)⟩]

/-- One iteration of the ABox generation loop: append the row's triples,
update the ten dimension maps, bump the two counters. -/
def genStep (st : GenState) (r : Row) : GenState :=
  { graph := st.graph ++ rowTriples st r
    gender_map := dimInsert st.gender_map r.Gender
    occupation_map := dimInsert st.occupation_map r.Occupation
    country_map := dimInsert st.country_map r.Country
    severity_map := dimInsert st.severity_map r.Severity
    consultation_map := dimInsert st.consultation_map r.Consultation_History
    stress_map := dimInsert st.stress_map r.Stress_Level
    medication_map := dimInsert st.medication_map r.Medication_Usage
    diet_map := dimInsert st.diet_map r.Diet_Quality
    smoking_map := dimInsert st.smoking_map r.Smoking_Habit
    alcohol_map := dimInsert st.alcohol_map r.Alcohol_Consumption
    mental_health_counter := st.mental_health_counter + 1
    lifestyle_counter := st.lifestyle_counter + 1 }

/-- Run the ABox generation loop over all rows. -/
def genRun (rows : List Row) : GenState := rows.foldl genStep initState

/-- The generated instance graph (the ABox). -/
def genAbox (rows : List Row) : List Triple := (genRun rows).graph

/-- Subject test of `create_subsampled_graph`, applied to a triple. -/
def keepTriple (max_user_id : Nat) (t : Triple) : Bool := keepUri max_user_id t.s

/-- The subsampler of `QueryBenchmark.py`: a fresh graph collecting the
triples whose subject passes the keep test, in iteration order. -/
def create_subsampled_graph (graph : List Triple) (max_user_id : Nat) :
    List Triple :=
  graph.foldl
    (fun sub t => if keepTriple max_user_id t then sub ++ [t] else sub) []

/-- The TBox built by `generate_snowflake_ttl.py`, in source order. -/
def tboxTriples : List Triple :=
  [⟨.voc .Person, .rdfType, .u (.voc .owlClass)⟩,
   ⟨.voc .Person, .rdfsLabel, .lit (.lang "Person" "en")⟩,
   ⟨.voc .Person, .rdfsComment,
     .lit (.plain "Represents an individual with demographic attributes.")⟩,
   ⟨.voc .MentalHealth, .rdfType, .u (.voc .owlClass)⟩,
   ⟨.voc .MentalHealth, .rdfsLabel, .lit (.lang "Mental Health" "en")⟩,
   ⟨.voc .MentalHealth, .rdfsComment,
     .lit (.plain "Captures mental health condition details.")⟩,
   ⟨.voc .Lifestyle, .rdfType, .u (.voc .owlClass)⟩,
   ⟨.voc .Lifestyle, .rdfsLabel, .lit (.lang "Lifestyle" "en")⟩,
   ⟨.voc .Lifestyle, .rdfsComment,
     .lit (.plain "Captures lifestyle factors like diet, smoking.")⟩,
   ⟨.voc .Gender, .rdfType, .u (.voc .owlClass)⟩,
   ⟨.voc .Occupation, .rdfType, .u (.voc .owlClass)⟩,
   ⟨.voc .Country, .rdfType, .u (.voc .owlClass)⟩,
   ⟨.voc .Severity, .rdfType, .u (.voc .owlClass)⟩,
   ⟨.voc .Consultation, .rdfType, .u (.voc .owlClass)⟩,
   ⟨.voc .StressLevel, .rdfType, .u (.voc .owlClass)⟩,
   ⟨.voc .Medication, .rdfType, .u (.voc .owlClass)⟩,
   ⟨.voc .DietQuality, .rdfType, .u (.voc .owlClass)⟩,
   ⟨.voc .SmokingHabit, .rdfType, .u (.voc .owlClass)⟩,
   ⟨.voc .AlcoholConsumption, .rdfType, .u (.voc .owlClass)⟩,
   ⟨.voc .Measurement, .rdfType, .u (.voc .qbDataStructureDefinition)⟩,
   ⟨.voc .Measurement, .rdfsLabel, .lit (.lang "Measurement" "en")⟩,
   ⟨.voc .Measurement, .rdfsComment,
     .lit (.plain "Multidimensional measurements for OLAP.")⟩,
   ⟨.voc .CountryHierarchy, .rdfType, .u (.voc .skosConceptScheme)⟩,
   ⟨.voc .CountryHierarchy, .rdfsLabel, .lit (.plain "Country Hierarchy")⟩,
   ⟨.voc .Country, .skosInScheme, .u (.voc .CountryHierarchy)⟩,
   ⟨.voc .SeverityHierarchy, .rdfType, .u (.voc .skosConceptScheme)⟩,
   ⟨.voc .Severity, .skosInScheme, .u (.voc .SeverityHierarchy)⟩,
   ⟨.voc .hasAge, .rdfType, .u (.voc .owlDatatypeProperty)⟩,
   ⟨.voc .hasAge, .rdfsDomain, .u (.voc .Person)⟩,
   ⟨.voc .hasAge, .rdfsRange, .u (.voc .xsdInteger)⟩,
   ⟨.voc .hasGender, .rdfType, .u (.voc .owlObjectProperty)⟩,
   ⟨.voc .hasGender, .rdfsDomain, .u (.voc .Person)⟩,
   ⟨.voc .hasGender, .rdfsRange, .u (.voc .Gender)⟩,
   ⟨.voc .hasOccupation, .rdfType, .u (.voc .owlObjectProperty)⟩,
   ⟨.voc .hasOccupation, .rdfsDomain, .u (.voc .Person)⟩,
   ⟨.voc .hasOccupation, .rdfsRange, .u (.voc .Occupation)⟩,
   ⟨.voc .hasCountry, .rdfType, .u (.voc .owlObjectProperty)⟩,
   ⟨.voc .hasCountry, .rdfsDomain, .u (.voc .Person)⟩,
   ⟨.voc .hasCountry, .rdfsRange, .u (.voc .Country)⟩,
   ⟨.voc .hasCountry, .owlEquivalentProperty, .u (.wde .wP17)⟩,
   ⟨.voc .hasMentalHealth, .rdfType, .u (.voc .owlObjectProperty)⟩,
   ⟨.voc .hasMentalHealth, .rdfsDomain, .u (.voc .Person)⟩,
   ⟨.voc .hasMentalHealth, .rdfsRange, .u (.voc .MentalHealth)⟩,
   ⟨.voc .hasSeverity, .rdfType, .u (.voc .owlObjectProperty)⟩,
   ⟨.voc .hasSeverity, .rdfsDomain, .u (.voc .MentalHealth)⟩,
   ⟨.voc .hasSeverity, .rdfsRange, .u (.voc .Severity)⟩,
   ⟨.voc .hasConsultationHistory, .rdfType, .u (.voc .owlObjectProperty)⟩,
   ⟨.voc .hasConsultationHistory, .rdfsDomain, .u (.voc .MentalHealth)⟩,
   ⟨.voc .hasConsultationHistory, .rdfsRange, .u (.voc .Consultation)⟩,
   ⟨.voc .hasStressLevel, .rdfType, .u (.voc .owlObjectProperty)⟩,
   ⟨.voc .hasStressLevel, .rdfsDomain, .u (.voc .MentalHealth)⟩,
   ⟨.voc .hasStressLevel, .rdfsRange, .u (.voc .StressLevel)⟩,
   ⟨.voc .hasMedicationUsage, .rdfType, .u (.voc .owlObjectProperty)⟩,
   ⟨.voc .hasMedicationUsage, .rdfsDomain, .u (.voc .MentalHealth)⟩,
   ⟨.voc .hasMedicationUsage, .rdfsRange, .u (.voc .Medication)⟩,
   ⟨.voc .hasLifestyle, .rdfType, .u (.voc .owlObjectProperty)⟩,
   ⟨.voc .hasLifestyle, .rdfsDomain, .u (.voc .Person)⟩,
   ⟨.voc .hasLifestyle, .rdfsRange, .u (.voc .Lifestyle)⟩,
   ⟨.voc .hasDietQuality, .rdfType, .u (.voc .owlObjectProperty)⟩,
   ⟨.voc .hasDietQuality, .rdfsDomain, .u (.voc .Lifestyle)⟩,
   ⟨.voc .hasDietQuality, .rdfsRange, .u (.voc .DietQuality)⟩,
   ⟨.voc .hasSmokingHabit, .rdfType, .u (.voc .owlObjectProperty)⟩,
   ⟨.voc .hasSmokingHabit, .rdfsDomain, .u (.voc .Lifestyle)⟩,
   ⟨.voc .hasSmokingHabit, .rdfsRange, .u (.voc .SmokingHabit)⟩,
   ⟨.voc .hasAlcoholConsumption, .rdfType, .u (.voc .owlObjectProperty)⟩,
   ⟨.voc .hasAlcoholConsumption, .rdfsDomain, .u (.voc .Lifestyle)⟩,
   ⟨.voc .hasAlcoholConsumption, .rdfsRange, .u (.voc .AlcoholConsumption)⟩,
   ⟨.voc .hasSleepHours, .rdfType, .u (.voc .owlDatatypeProperty)⟩,
   ⟨.voc .hasSleepHours, .rdfsDomain, .u (.voc .Measurement)⟩,
   ⟨.voc .hasSleepHours, .rdfsRange, .u (.voc .xsdFloat)⟩,
   ⟨.voc .hasSleepHours, .qbMeasure, .lit (.plain "Sleep Hours")⟩,
   ⟨.voc .hasWorkHours, .rdfType, .u (.voc .owlDatatypeProperty)⟩,
   ⟨.voc .hasWorkHours, .rdfsDomain, .u (.voc .Measurement)⟩,
   ⟨.voc .hasWorkHours, .rdfsRange, .u (.voc .xsdInteger)⟩,
   ⟨.voc .hasWorkHours, .qbMeasure, .lit (.plain "Work Hours")⟩,
   ⟨.voc .hasPhysicalActivityHours, .rdfType, .u (.voc .owlDatatypeProperty)⟩,
   ⟨.voc .hasPhysicalActivityHours, .rdfsDomain, .u (.voc .Measurement)⟩,
   ⟨.voc .hasPhysicalActivityHours, .rdfsRange, .u (.voc .xsdInteger)⟩,
   ⟨.voc .hasPhysicalActivityHours, .qbMeasure,
     .lit (.plain "Physical Activity Hours")⟩,
   ⟨.voc .hasSocialMediaUsage, .rdfType, .u (.voc .owlDatatypeProperty)⟩,
   ⟨.voc .hasSocialMediaUsage, .rdfsDomain, .u (.voc .Measurement)⟩,
   ⟨.voc .hasSocialMediaUsage, .rdfsRange, .u (.voc .xsdFloat)⟩,
   ⟨.voc .hasSocialMediaUsage, .qbMeasure, .lit (.plain "Social Media Usage")⟩,
   ⟨.voc .exHasMeasurement, .rdfType, .u (.voc .owlObjectProperty)⟩,
   ⟨.voc .exHasMeasurement, .rdfsDomain, .u (.voc .Person)⟩,
   ⟨.voc .exHasMeasurement, .rdfsRange, .u (.voc .Measurement)⟩]

/-- The graph the benchmark loads: TBox plus ABox. -/
def benchGraph (rows : List Row) : List Triple := tboxTriples ++ genAbox rows

/-- Term of a SPARQL triple pattern: a variable or a constant. -/
inductive Term
  | v (x : String)
  | cu (x : Uri)
  | cl (l : Lit)
deriving DecidableEq

/-- A triple pattern with a constant predicate, as all patterns of the four
catalog queries are. -/
structure Pattern where
  ps : Term
  pp : Pred
  po : Term
deriving DecidableEq

/-- A solution mapping (partial binding of variables to RDF terms). -/
def Env := List (String × Obj)

/-- Look a variable up in a solution mapping. -/
def envLookup (e : Env) (x : String) : Option Obj :=
  match e with
  | [] => none
  | (y, o) :: rest => if y = x then some o else envLookup rest x

/-- Match one pattern term against one RDF term, extending the binding. -/
def matchTerm (e : Env) (t : Term) (o : Obj) : Option Env :=
  match t with
  | .v x =>
    match envLookup e x with
    | some o2 => if o2 = o then some e else none
    | none => some ((x, o) :: e)
  | .cu u => if o = .u u then some e else none
  | .cl l => if o = .lit l then some e else none

/-- Match a pattern against a triple under a binding. -/
def matchTriple (e : Env) (pat : Pattern) (t : Triple) : Option Env :=
  if pat.pp = t.p then
    match matchTerm e pat.ps (.u t.s) with
    | some e1 => matchTerm e1 pat.po t.o
    | none => none
  else none

/-- Evaluate a basic graph pattern: all solution mappings of the conjunction
of the patterns over the graph. -/
def evalBGP (g : List Triple) (pats : List Pattern) : List Env :=
  pats.foldl
    (fun envs pat =>
      envs.flatMap (fun e => g.filterMap (fun t => matchTriple e pat t)))
    [([] : Env)]

/-- SPARQL `datatype(...)` on a literal, restricted to the two datatypes the
queries compare against (ill-typed literals keep their declared datatype). -/
def dtOfLit : Lit → Option LDt
  | .typedInt _ => some .xint
  | .typedFloat _ => some .xfloat
  | .ill _ d => some d
  | _ => none

/-- The `FILTER (datatype(?x) = dt)` test on a solution mapping. -/
def fltDt (x : String) (d : LDt) (e : Env) : Bool :=
  match envLookup e x with
  | some (.lit l) => decide (dtOfLit l = some d)
  | _ => false

/-- Numeric (float) value of a bound variable. -/
def envFloat (e : Env) (x : String) : Option Rat :=
  match envLookup e x with
  | some (.lit (.typedFloat q)) => some q
  | _ => none

/-- Numeric (integer) value of a bound variable. -/
def envInt (e : Env) (x : String) : Option Int :=
  match envLookup e x with
  | some (.lit (.typedInt n)) => some n
  | _ => none

/-- String value of a bound variable holding a plain literal. -/
def getStr (e : Env) (x : String) : Option String :=
  match envLookup e x with
  | some (.lit (.plain s)) => some s
  | _ => none

/-- URI value of a bound variable. -/
def getUri (e : Env) (x : String) : Option Uri :=
  match envLookup e x with
  | some (.u u) => some u
  | _ => none

/-- Strict lexicographic order on character lists (SPARQL string ordering). -/
def strLtL : List Char → List Char → Bool
  | [], [] => false
  | [], _ :: _ => true
  | _ :: _, [] => false
  | a :: as, b :: bs => if a = b then strLtL as bs else decide (a.toNat < b.toNat)

/-- Strict string order. -/
def strLtB (a b : String) : Bool := strLtL a.data b.data

/-- Reflexive string order. -/
def strLeB (a b : String) : Bool := strLtB a b || a == b

/-- Order on URIs by their rendered string. -/
def uriLtB (a b : Uri) : Bool := strLtL (uriStr a) (uriStr b)

/-- Insertion into a sorted list. -/
def insertBy {α : Type} (le : α → α → Bool) (x : α) : List α → List α
  | [] => [x]
  | y :: ys => if le x y then x :: y :: ys else y :: insertBy le x ys

/-- Insertion sort (ORDER BY). -/
def sortBy {α : Type} (le : α → α → Bool) (l : List α) : List α :=
  l.foldr (insertBy le) []

/-- First-occurrence deduplication (the distinct GROUP BY keys, in first-seen
order). -/
def dedupFO {α : Type} [DecidableEq α] (l : List α) : List α :=
  l.foldl (fun acc a => if a ∈ acc then acc else acc ++ [a]) []

/-- Average of a list of rationals (SPARQL AVG over a nonempty group). -/
def avgQ (l : List Rat) : Rat := l.sum / (l.length : Rat)

/-- Patterns of the `roll_up_sleep_by_country` query, in query-text order. -/
def rollUpPats : List Pattern :=
  [⟨.v "user", .rdfType, .cu (.voc .Person)⟩,
   ⟨.v "user", .exHasMeasurement, .v "measurement"⟩,
   ⟨.v "user", .hasCountry, .v "countryUri"⟩,
   ⟨.v "measurement", .hasSleepHours, .v "sleepHours"⟩,
   ⟨.v "countryUri", .skosPrefLabel, .v "country"⟩]

/-- Projection, grouping and ordering of `roll_up_sleep_by_country` applied
to the basic-graph-pattern solutions. -/
def rollUpFrom (bs : List Env) : List (String × Rat) :=
  let bs2 := bs.filter (fltDt "sleepHours" .xfloat)
  let pairs := bs2.filterMap (fun e =>
    match getStr e "country", envFloat e "sleepHours" with
    | some c, some q => some (c, q)
    | _, _ => none)
  let keys := sortBy strLeB (dedupFO (pairs.map Prod.fst))
  keys.map (fun c => (c, avgQ ((pairs.filter (fun p => p.1 = c)).map Prod.snd)))

/-- The `roll_up_sleep_by_country` query: average sleep hours per country,
ordered by country label. -/
def roll_up_sleep_by_country (g : List Triple) : List (String × Rat) :=
  rollUpFrom (evalBGP g rollUpPats)

/-- Patterns of the `drill_down_work_by_country_gender` query. -/
def drillDownPats : List Pattern :=
  [⟨.v "user", .rdfType, .cu (.voc .Person)⟩,
   ⟨.v "user", .exHasMeasurement, .v "measurement"⟩,
   ⟨.v "user", .hasCountry, .v "countryUri"⟩,
   ⟨.v "user", .hasGender, .v "genderUri"⟩,
   ⟨.v "measurement", .hasWorkHours, .v "workHours"⟩,
   ⟨.v "countryUri", .skosPrefLabel, .v "country"⟩,
   ⟨.v "genderUri", .skosPrefLabel, .v "gender"⟩]

/-- Projection, grouping and ordering of `drill_down_work_by_country_gender`. -/
def drillDownFrom (bs : List Env) : List ((String × String) × Rat) :=
  let bs2 := bs.filter (fltDt "workHours" .xint)
  let triples := bs2.filterMap (fun e =>
    match getStr e "country", getStr e "gender", envInt e "workHours" with
    | some c, some gd, some w => some ((c, gd), (w : Rat))
    | _, _, _ => none)
  let keys := sortBy
    (fun a b => strLtB a.1 b.1 || (a.1 == b.1 && strLeB a.2 b.2))
    (dedupFO (triples.map Prod.fst))
  keys.map (fun k => (k, avgQ ((triples.filter (fun p => p.1 = k)).map Prod.snd)))

/-- The `drill_down_work_by_country_gender` query. -/
def drill_down_work_by_country_gender (g : List Triple) :
    List ((String × String) × Rat) :=
  drillDownFrom (evalBGP g drillDownPats)

/-- Patterns of the `slice_high_stress` query. -/
def sliceHighStressPats : List Pattern :=
  [⟨.v "user", .rdfType, .cu (.voc .Person)⟩,
   ⟨.v "user", .hasMentalHealth, .v "mh"⟩,
   ⟨.v "user", .hasCountry, .v "countryUri"⟩,
   ⟨.v "user", .exHasMeasurement, .v "measurement"⟩,
   ⟨.v "mh", .hasStressLevel, .v "stressUri"⟩,
   ⟨.v "stressUri", .skosPrefLabel, .cl (.plain "High")⟩,
   ⟨.v "measurement", .hasSleepHours, .v "sleepHours"⟩,
   ⟨.v "countryUri", .skosPrefLabel, .v "country"⟩]

/-- Projection and ordering of `slice_high_stress`. -/
def sliceFrom (bs : List Env) : List (Uri × String × Rat) :=
  let bs2 := bs.filter (fltDt "sleepHours" .xfloat)
  let rows := bs2.filterMap (fun e =>
    match getUri e "user", getStr e "country", envFloat e "sleepHours" with
    | some u, some c, some q => some (u, c, q)
    | _, _, _ => none)
  sortBy (fun a b => strLtB a.2.1 b.2.1
    || (a.2.1 == b.2.1 && (uriLtB a.1 b.1 || a.1 == b.1))) rows

/-- The `slice_high_stress` query: users with stress level High, with country
and sleep hours, ordered by country then user. -/
def slice_high_stress (g : List Triple) : List (Uri × String × Rat) :=
  sliceFrom (evalBGP g sliceHighStressPats)

/-- Patterns of the `dice_medium_severity_australia` query. -/
def diceMediumSeverityAustraliaPats : List Pattern :=
  [⟨.v "user", .rdfType, .cu (.voc .Person)⟩,
   ⟨.v "user", .hasMentalHealth, .v "mh"⟩,
   ⟨.v "user", .hasCountry, .v "countryUri"⟩,
   ⟨.v "user", .exHasMeasurement, .v "measurement"⟩,
   ⟨.v "user", .hasAge, .v "age"⟩,
   ⟨.v "mh", .hasSeverity, .v "severityUri"⟩,
   ⟨.v "severityUri", .skosPrefLabel, .cl (.plain "Medium")⟩,
   ⟨.v "countryUri", .skosPrefLabel, .cl (.plain "Australia")⟩,
   ⟨.v "measurement", .hasWorkHours, .v "workHours"⟩]

/-- Projection and ordering of `dice_medium_severity_australia`. -/
def diceFrom (bs : List Env) : List (Uri × Int × Int) :=
  let bs2 := bs.filter (fun e => fltDt "age" .xint e && fltDt "workHours" .xint e)
  let rows := bs2.filterMap (fun e =>
    match getUri e "user", envInt e "age", envInt e "workHours" with
    | some u, some a, some w => some (u, a, w)
    | _, _, _ => none)
  sortBy (fun a b => decide (a.2.1 < b.2.1)
    || (a.2.1 == b.2.1 && (uriLtB a.1 b.1 || a.1 == b.1))) rows

/-- The `dice_medium_severity_australia` query: users in Australia with
Medium severity, with age and work hours, ordered by age then user. -/
def dice_medium_severity_australia (g : List Triple) : List (Uri × Int × Int) :=
  diceFrom (evalBGP g diceMediumSeverityAustraliaPats)

theorem subsample_foldl (g : List Triple) (T : Nat) :
    ∀ acc, g.foldl
        (fun sub t => if keepTriple T t then sub ++ [t] else sub) acc
      = acc ++ g.filter (keepTriple T) := by
  induction g with
  | nil => intro acc; simp
  | cons t g ih =>
    intro acc
    by_cases h : keepTriple T t
    · simp [h, ih]
    · simp [h, ih]

theorem create_subsampled_graph_eq_filter (g : List Triple) (T : Nat) :
    create_subsampled_graph g T = g.filter (keepTriple T) := by
  unfold create_subsampled_graph
  rw [subsample_foldl]
  simp

theorem subsample_eq_spec (g : List Triple) (T : Nat) :
    create_subsampled_graph g T = g.filter (fun t => specKeepUri T t.s) := by
  rw [create_subsampled_graph_eq_filter]
  apply List.filter_congr
  intro t _
  unfold keepTriple
  rw [keepUri_eq_specKeepUri]

theorem mem_subsample {g : List Triple} {T : Nat} {t : Triple}
    (h : t ∈ create_subsampled_graph g T) :
    t ∈ g ∧ specKeepUri T t.s = true := by
  rw [subsample_eq_spec] at h
  exact ⟨List.mem_of_mem_filter h, by simpa using List.of_mem_filter h⟩

/-- Shape discipline of the generated graph: the four measurement facts hang
off Measurement subjects, the four mental-health links off MentalHealth
subjects, the three lifestyle links off Lifestyle subjects. -/
def factShape (t : Triple) : Bool :=
  match t.p with
  | .hasSleepHours | .hasWorkHours | .hasPhysicalActivityHours
  | .hasSocialMediaUsage =>
    match t.s with
    | .measurement _ => true
    | _ => false
  | .hasSeverity | .hasConsultationHistory | .hasStressLevel
  | .hasMedicationUsage =>
    match t.s with
    | .mentalHealth _ => true
    | _ => false
  | .hasDietQuality | .hasSmokingHabit | .hasAlcoholConsumption =>
    match t.s with
    | .lifestyle _ => true
    | _ => false
  | _ => true

/-- Object discipline of the generated graph: no blank nodes, no
language-tagged literals. -/
def objOK : Obj → Bool
  | .bnode _ => false
  | .lit (.lang _ _) => false
  | _ => true

/-- Combined per-triple invariant of the generated graph. -/
def triOK (t : Triple) : Bool := factShape t && objOK t.o

theorem objOK_mkLit (v : CellVal) (dt : LDt) : objOK (.lit (mkLit v dt)) = true := by
  cases dt <;> cases v <;> simp only [mkLit] <;> first
    | rfl
    | (split <;> rfl)

theorem triOK_dimTriples {fresh : Bool} {d : Uri} {cls : Voc} {v : String}
    {parent : Uri} {link : Pred}
    (hlink : factShape ⟨parent, link, .u d⟩ = true) :
    ∀ t ∈ dimTriples fresh d cls v parent link, triOK t = true := by
  intro t ht
  unfold dimTriples at ht
  rcases List.mem_append.1 ht with h | h
  · split at h
    · simp only [List.mem_cons, List.not_mem_nil, or_false] at h
      rcases h with rfl | rfl <;> rfl
    · simp at h
  · simp only [List.mem_singleton] at h
    subst h
    simp [triOK, hlink, objOK]

theorem triOK_countryTriples {fresh : Bool} {cid : Nat} {v : String}
    {parent : Uri}
    (hlink : factShape ⟨parent, .hasCountry, .u (.country cid)⟩ = true) :
    ∀ t ∈ countryTriples fresh cid v parent, triOK t = true := by
  intro t ht
  unfold countryTriples at ht
  rcases List.mem_append.1 ht with h | h
  · split at h
    · rcases List.mem_append.1 h with h | h
      · simp only [List.mem_cons, List.not_mem_nil, or_false] at h
        rcases h with rfl | rfl <;> rfl
      · split at h
        · simp only [List.mem_singleton] at h
          subst h
          rfl
        · simp at h
    · simp at h
  · simp only [List.mem_singleton] at h
    subst h
    simp [triOK, hlink, objOK]

theorem triOK_rowTriples (st : GenState) (r : Row) :
    ∀ t ∈ rowTriples st r, triOK t = true := by
  unfold rowTriples
  simp only [List.append_assoc]
  refine List.forall_mem_append.2 ⟨?_, ?_⟩
  · intro t ht
    simp only [List.mem_cons, List.not_mem_nil, or_false] at ht
    rcases ht with rfl | rfl
    · rfl
    · simp [triOK, factShape, objOK_mkLit]
  refine List.forall_mem_append.2 ⟨triOK_dimTriples rfl, ?_⟩
  refine List.forall_mem_append.2 ⟨triOK_dimTriples rfl, ?_⟩
  refine List.forall_mem_append.2 ⟨triOK_countryTriples rfl, ?_⟩
  refine List.forall_mem_append.2 ⟨?_, ?_⟩
  · intro t ht
    simp only [List.mem_cons, List.not_mem_nil, or_false] at ht
    rcases ht with rfl | rfl | rfl <;> rfl
  refine List.forall_mem_append.2 ⟨triOK_dimTriples rfl, ?_⟩
  refine List.forall_mem_append.2 ⟨triOK_dimTriples rfl, ?_⟩
  refine List.forall_mem_append.2 ⟨triOK_dimTriples rfl, ?_⟩
  refine List.forall_mem_append.2 ⟨triOK_dimTriples rfl, ?_⟩
  refine List.forall_mem_append.2 ⟨?_, ?_⟩
  · intro t ht
    simp only [List.mem_cons, List.not_mem_nil, or_false] at ht
    rcases ht with rfl | rfl <;> rfl
  refine List.forall_mem_append.2 ⟨triOK_dimTriples rfl, ?_⟩
  refine List.forall_mem_append.2 ⟨triOK_dimTriples rfl, ?_⟩
  refine List.forall_mem_append.2 ⟨triOK_dimTriples rfl, ?_⟩
  intro t ht
  simp only [List.mem_cons, List.not_mem_nil, or_false] at ht
  rcases ht with rfl | rfl | rfl | rfl | rfl | rfl <;>
    first | rfl | simp [triOK, factShape, objOK_mkLit]

theorem mem_foldl_graph {t : Triple} :
    ∀ (rows : List Row) (st : GenState), t ∈ st.graph
      → t ∈ (rows.foldl genStep st).graph := by
  intro rows
  induction rows with
  | nil => intro st h; exact h
  | cons r rows ih =>
    intro st h
    exact ih (genStep st r) (by simp [genStep, h])

theorem genAbox_triOK (rows : List Row) :
    ∀ t ∈ genAbox rows, triOK t = true := by
  suffices h : ∀ (rows : List Row) (st : GenState),
      (∀ t ∈ st.graph, triOK t = true)
      → ∀ t ∈ (rows.foldl genStep st).graph, triOK t = true by
    exact h rows initState (by intro t ht; simp [initState] at ht)
  intro rows
  induction rows with
  | nil => intro st h; exact h
  | cons r rows ih =>
    intro st h
    refine ih (genStep st r) ?_
    intro t ht
    rcases List.mem_append.1 ht with h1 | h1
    · exact h t h1
    · exact triOK_rowTriples st r t h1

/-- Subjects of fact entities: MentalHealth, Lifestyle, Measurement. -/
def isFactSubject : Uri → Bool
  | .mentalHealth _ => true
  | .lifestyle _ => true
  | .measurement _ => true
  | _ => false

theorem isFactSubject_false_of_specKeep {T : Nat} {s : Uri}
    (h : specKeepUri T s = true) : isFactSubject s = false := by
  cases s <;> simp_all [specKeepUri, isFactSubject]

theorem spec_false_of_fact_sleep (T : Nat) :
    ∀ t : Triple, t.p = .hasSleepHours → factShape t = true
      → specKeepUri T t.s = false := by
  rintro ⟨s, p, o⟩ rfl hf
  cases s <;> first | rfl | simp [factShape] at hf

theorem spec_false_of_fact_work (T : Nat) :
    ∀ t : Triple, t.p = .hasWorkHours → factShape t = true
      → specKeepUri T t.s = false := by
  rintro ⟨s, p, o⟩ rfl hf
  cases s <;> first | rfl | simp [factShape] at hf

theorem subsample_no_pred (rows : List Row) (T : Nat) (p : Pred)
    (hp1 : ∀ t ∈ tboxTriples, t.p ≠ p)
    (hp2 : ∀ t : Triple, t.p = p → factShape t = true
      → specKeepUri T t.s = false) :
    ∀ t ∈ create_subsampled_graph (benchGraph rows) T, t.p ≠ p := by
  intro t ht
  obtain ⟨hmem, hkeep⟩ := mem_subsample ht
  rcases List.mem_append.1 hmem with h | h
  · exact hp1 t h
  · intro hpp
    have hshape := genAbox_triOK rows t h
    have hfs : factShape t = true := by
      unfold triOK at hshape
      simp only [Bool.and_eq_true] at hshape
      exact hshape.1
    rw [hp2 t hpp hfs] at hkeep
    exact Bool.false_ne_true hkeep

theorem evalBGP_foldl_nil (g : List Triple) :
    ∀ pats : List Pattern,
      pats.foldl
        (fun envs pat =>
          envs.flatMap (fun e => g.filterMap (fun t => matchTriple e pat t)))
        [] = [] := by
  intro pats
  induction pats with
  | nil => rfl
  | cons q rest ih =>
    rw [List.foldl_cons]
    simpa using ih

theorem evalBGP_eq_nil_of_no_pred (g : List Triple) (pats : List Pattern)
    (p : Pred) (hg : ∀ t ∈ g, t.p ≠ p) (hpat : ∃ q ∈ pats, q.pp = p) :
    evalBGP g pats = [] := by
  unfold evalBGP
  suffices h : ∀ (pats : List Pattern) (envs : List Env),
      (∃ q ∈ pats, q.pp = p) →
      pats.foldl
        (fun envs pat =>
          envs.flatMap (fun e => g.filterMap (fun t => matchTriple e pat t)))
        envs = [] from h pats _ hpat
  intro pats
  induction pats with
  | nil =>
    rintro envs ⟨q, hq, _⟩
    simp at hq
  | cons a rest ih =>
    rintro envs ⟨q, hq, hqp⟩
    rcases List.mem_cons.1 hq with rfl | hq2
    · have hstep : envs.flatMap
          (fun e => g.filterMap (fun t => matchTriple e q t)) = [] := by
        apply List.flatMap_eq_nil_iff.2
        intro e _
        apply List.filterMap_eq_nil_iff.2
        intro t htg
        have hc : ¬(q.pp = t.p) := by
          intro hcontra
          rw [hcontra] at hqp
          exact hg t htg hqp
        unfold matchTriple
        rw [if_neg hc]
      rw [List.foldl_cons, hstep]
      exact evalBGP_foldl_nil g rest
    · rw [List.foldl_cons]
      exact ih _ ⟨q, hq2, hqp⟩

/-- The normalization map a whole column of values produces: the fold of the
generator's per-value insert step from the empty dict. -/
def buildMap (vs : List String) : List (String × Nat) := vs.foldl dimInsert []

theorem lookupA_eq_none_iff (m : List (String × Nat)) (v : String) :
    lookupA m v = none ↔ v ∉ m.map Prod.fst := by
  induction m with
  | nil => simp [lookupA]
  | cons kv m ih =>
    obtain ⟨k, i⟩ := kv
    simp only [lookupA, List.map_cons]
    by_cases h : k = v
    · subst h
      simp
    · rw [if_neg h, ih]
      constructor
      · intro hv
        simp only [List.mem_cons, not_or]
        exact ⟨fun hh => h hh.symm, hv⟩
      · intro hv
        exact fun hm => hv (List.mem_cons_of_mem _ hm)

theorem map_fst_dimInsert (m : List (String × Nat)) (v : String) :
    (dimInsert m v).map Prod.fst
      = if v ∈ m.map Prod.fst then m.map Prod.fst
        else m.map Prod.fst ++ [v] := by
  unfold dimInsert
  cases h : lookupA m v with
  | some i =>
    have hv : v ∈ m.map Prod.fst := by
      by_contra hv
      rw [(lookupA_eq_none_iff m v).2 hv] at h
      exact Option.noConfusion h
    simp [hv]
  | none =>
    have hv : v ∉ m.map Prod.fst := (lookupA_eq_none_iff m v).1 h
    simp [hv]

theorem map_fst_foldl_dimInsert :
    ∀ (vs : List String) (m : List (String × Nat)),
      (vs.foldl dimInsert m).map Prod.fst
        = vs.foldl (fun acc a => if a ∈ acc then acc else acc ++ [a])
            (m.map Prod.fst) := by
  intro vs
  induction vs with
  | nil => intro m; rfl
  | cons v vs ih =>
    intro m
    rw [List.foldl_cons, List.foldl_cons, ih, map_fst_dimInsert]

theorem buildMap_fst (vs : List String) :
    (buildMap vs).map Prod.fst = dedupFO vs := by
  unfold buildMap dedupFO
  rw [map_fst_foldl_dimInsert]
  rfl

theorem dedupFO_nodup {α : Type} [DecidableEq α] (l : List α) :
    (dedupFO l).Nodup := by
  suffices h : ∀ (l : List α) (acc : List α), acc.Nodup →
      (l.foldl (fun acc a => if a ∈ acc then acc else acc ++ [a]) acc).Nodup from
    h l [] List.nodup_nil
  intro l
  induction l with
  | nil => intro acc h; exact h
  | cons a l ih =>
    intro acc h
    rw [List.foldl_cons]
    by_cases ha : a ∈ acc
    · rw [if_pos ha]
      exact ih acc h
    · rw [if_neg ha]
      refine ih _ ?_
      simp [List.nodup_append, h, ha]

theorem map_snd_dimInsert (m : List (String × Nat)) (v : String)
    (h : m.map Prod.snd = List.range' 1 m.length) :
    (dimInsert m v).map Prod.snd = List.range' 1 (dimInsert m v).length := by
  unfold dimInsert
  cases hl : lookupA m v with
  | some i => exact h
  | none =>
    have h1 : List.range' 1 m.length ++ List.range' (1 + m.length) 1
        = List.range' 1 (m.length + 1) := by
      rw [Nat.add_comm m.length 1]
      exact List.range'_append_1 1 m.length 1
    simp only [List.map_append, List.map_cons, List.map_nil, h,
      List.length_append, List.length_cons, List.length_nil]
    rw [← h1]
    simp [List.range'_one, Nat.add_comm]

theorem buildMap_snd (vs : List String) :
    (buildMap vs).map Prod.snd = List.range' 1 (buildMap vs).length := by
  suffices h : ∀ (vs : List String) (m : List (String × Nat)),
      m.map Prod.snd = List.range' 1 m.length →
      (vs.foldl dimInsert m).map Prod.snd
        = List.range' 1 (vs.foldl dimInsert m).length by
    exact h vs [] rfl
  intro vs
  induction vs with
  | nil => intro m h; exact h
  | cons v vs ih =>
    intro m h
    rw [List.foldl_cons]
    exact ih _ (map_snd_dimInsert m v h)

theorem lookupA_append_some {m : List (String × Nat)} {v : String} {i : Nat}
    (h : lookupA m v = some i) (x : String × Nat) :
    lookupA (m ++ [x]) v = some i := by
  induction m with
  | nil => exact Option.noConfusion h
  | cons kv m ih =>
    obtain ⟨k, j⟩ := kv
    by_cases hk : k = v
    · subst hk
      simp [lookupA] at h ⊢
      exact h
    · simp only [lookupA, if_neg hk] at h
      simp only [List.cons_append, lookupA, if_neg hk]
      exact ih h

theorem lookupA_dimInsert_some {m : List (String × Nat)} {v : String} {i : Nat}
    (h : lookupA m v = some i) (w : String) :
    lookupA (dimInsert m w) v = some i := by
  unfold dimInsert
  cases lookupA m w with
  | some _ => exact h
  | none => exact lookupA_append_some h _

theorem lookupA_foldl_dimInsert {v : String} {i : Nat} :
    ∀ (ws : List String) (m : List (String × Nat)),
      lookupA m v = some i → lookupA (ws.foldl dimInsert m) v = some i := by
  intro ws
  induction ws with
  | nil => intro m h; exact h
  | cons w ws ih =>
    intro m h
    rw [List.foldl_cons]
    exact ih _ (lookupA_dimInsert_some h w)

theorem buildMap_append (vs ws : List String) :
    buildMap (vs ++ ws) = ws.foldl dimInsert (buildMap vs) := by
  unfold buildMap
  rw [List.foldl_append]

theorem foldl_genStep_maps :
    ∀ (rows : List Row) (st : GenState),
      ((rows.foldl genStep st).gender_map
        = (rows.map (·.Gender)).foldl dimInsert st.gender_map)
      ∧ ((rows.foldl genStep st).occupation_map
        = (rows.map (·.Occupation)).foldl dimInsert st.occupation_map)
      ∧ ((rows.foldl genStep st).country_map
        = (rows.map (·.Country)).foldl dimInsert st.country_map)
      ∧ ((rows.foldl genStep st).severity_map
        = (rows.map (·.Severity)).foldl dimInsert st.severity_map)
      ∧ ((rows.foldl genStep st).consultation_map
        = (rows.map (·.Consultation_History)).foldl dimInsert st.consultation_map)
      ∧ ((rows.foldl genStep st).stress_map
        = (rows.map (·.Stress_Level)).foldl dimInsert st.stress_map)
      ∧ ((rows.foldl genStep st).medication_map
        = (rows.map (·.Medication_Usage)).foldl dimInsert st.medication_map)
      ∧ ((rows.foldl genStep st).diet_map
        = (rows.map (·.Diet_Quality)).foldl dimInsert st.diet_map)
      ∧ ((rows.foldl genStep st).smoking_map
        = (rows.map (·.Smoking_Habit)).foldl dimInsert st.smoking_map)
      ∧ ((rows.foldl genStep st).alcohol_map
        = (rows.map (·.Alcohol_Consumption)).foldl dimInsert st.alcohol_map) := by
  intro rows
  induction rows with
  | nil =>
    intro st
    exact ⟨rfl, rfl, rfl, rfl, rfl, rfl, rfl, rfl, rfl, rfl⟩
  | cons r rows ih =>
    intro st
    simp only [List.map_cons, List.foldl_cons]
    exact ih (genStep st r)

theorem mem_genAbox_of_mem_rowTriples {rows : List Row} {i : Nat}
    (h : i < rows.length) {t : Triple}
    (ht : t ∈ rowTriples ((rows.take i).foldl genStep initState) rows[i]) :
    t ∈ genAbox rows := by
  have hsplit : rows = rows.take i ++ rows[i] :: rows.drop (i + 1) := by
    conv_lhs => rw [← List.take_append_drop i rows]
    rw [List.drop_eq_getElem_cons h]
  have hfold : rows.foldl genStep initState
      = (rows.drop (i + 1)).foldl genStep
          (genStep ((rows.take i).foldl genStep initState) rows[i]) := by
    conv_lhs => rw [hsplit]
    rw [List.foldl_append, List.foldl_cons]
  unfold genAbox genRun
  rw [hfold]
  apply mem_foldl_graph
  rw [show (genStep ((rows.take i).foldl genStep initState) rows[i]).graph
      = ((rows.take i).foldl genStep initState).graph
        ++ rowTriples ((rows.take i).foldl genStep initState) rows[i] from rfl]
  exact List.mem_append_right _ ht

/-- C1: over one generation run, each dimension's normalization map binds
exactly the distinct values of the column in first-occurrence order, assigns
them the dense identifier range `1..k`, and never rebinds a value; and the
ten maps of the generator are exactly this fold of the per-value insert step
over the corresponding column. -/
theorem claim_C1 :
    (∀ vs : List String,
      ((buildMap vs).map Prod.fst = dedupFO vs
        ∧ (dedupFO vs).Nodup
        ∧ (buildMap vs).map Prod.snd = List.range' 1 (dedupFO vs).length)
      ∧ ∀ v i, lookupA (buildMap vs) v = some i
          → ∀ ws, lookupA (buildMap (vs ++ ws)) v = some i)
    ∧ (∀ rows : List Row,
        (genRun rows).gender_map = buildMap (rows.map (·.Gender))
        ∧ (genRun rows).occupation_map = buildMap (rows.map (·.Occupation))
        ∧ (genRun rows).country_map = buildMap (rows.map (·.Country))
        ∧ (genRun rows).severity_map = buildMap (rows.map (·.Severity))
        ∧ (genRun rows).consultation_map
            = buildMap (rows.map (·.Consultation_History))
        ∧ (genRun rows).stress_map = buildMap (rows.map (·.Stress_Level))
        ∧ (genRun rows).medication_map
            = buildMap (rows.map (·.Medication_Usage))
        ∧ (genRun rows).diet_map = buildMap (rows.map (·.Diet_Quality))
        ∧ (genRun rows).smoking_map = buildMap (rows.map (·.Smoking_Habit))
        ∧ (genRun rows).alcohol_map
            = buildMap (rows.map (·.Alcohol_Consumption))) := by
  constructor
  · intro vs
    refine ⟨⟨buildMap_fst vs, dedupFO_nodup vs, ?_⟩, ?_⟩
    · have hlen : (dedupFO vs).length = (buildMap vs).length := by
        rw [← buildMap_fst vs, List.length_map]
      rw [buildMap_snd vs, hlen]
    · intro v i h ws
      rw [buildMap_append]
      exact lookupA_foldl_dimInsert ws _ h
  · intro rows
    exact foldl_genStep_maps rows initState

theorem claim_C1_witness :
    lookupA (buildMap ["USA", "India", "USA"]) "USA" = some 1
    ∧ lookupA (buildMap (["USA", "India", "USA"] ++ ["UK"])) "USA" = some 1 :=
  ⟨by decide, (claim_C1.1 ["USA", "India", "USA"]).2 "USA" 1 (by decide) ["UK"]⟩

/-- C2: for every graph and threshold, the subsampler returns exactly the
triples whose subject is a Person URI with row id at most the threshold,
plus all dimension-entity triples, unconditionally and in full. -/
theorem claim_C2 (g : List Triple) (T : Nat) :
    create_subsampled_graph g T = g.filter (fun t => specKeepUri T t.s) :=
  subsample_eq_spec g T

/-- C3: no subsampled graph contains a triple with a MentalHealth, Lifestyle
or Measurement subject, and each of the four catalog queries returns zero
rows on every subsampled graph, whatever the threshold. -/
theorem claim_C3 (rows : List Row) (T : Nat) :
    ((create_subsampled_graph (benchGraph rows) T).all
        (fun t => !(isFactSubject t.s))) = true
    ∧ roll_up_sleep_by_country (create_subsampled_graph (benchGraph rows) T) = []
    ∧ drill_down_work_by_country_gender
        (create_subsampled_graph (benchGraph rows) T) = []
    ∧ slice_high_stress (create_subsampled_graph (benchGraph rows) T) = []
    ∧ dice_medium_severity_australia
        (create_subsampled_graph (benchGraph rows) T) = [] := by
  have hsleep : ∀ t ∈ create_subsampled_graph (benchGraph rows) T,
      t.p ≠ .hasSleepHours :=
    subsample_no_pred rows T .hasSleepHours (by decide)
      (spec_false_of_fact_sleep T)
  have hwork : ∀ t ∈ create_subsampled_graph (benchGraph rows) T,
      t.p ≠ .hasWorkHours :=
    subsample_no_pred rows T .hasWorkHours (by decide)
      (spec_false_of_fact_work T)
  refine ⟨?_, ?_, ?_, ?_, ?_⟩
  · apply List.all_eq_true.2
    intro t ht
    rw [isFactSubject_false_of_specKeep (mem_subsample ht).2]
    rfl
  · unfold roll_up_sleep_by_country
    rw [evalBGP_eq_nil_of_no_pred _ _ .hasSleepHours hsleep
      ⟨⟨.v "measurement", .hasSleepHours, .v "sleepHours"⟩, by decide, rfl⟩]
    rfl
  · unfold drill_down_work_by_country_gender
    rw [evalBGP_eq_nil_of_no_pred _ _ .hasWorkHours hwork
      ⟨⟨.v "measurement", .hasWorkHours, .v "workHours"⟩, by decide, rfl⟩]
    rfl
  · unfold slice_high_stress
    rw [evalBGP_eq_nil_of_no_pred _ _ .hasSleepHours hsleep
      ⟨⟨.v "measurement", .hasSleepHours, .v "sleepHours"⟩, by decide, rfl⟩]
    rfl
  · unfold dice_medium_severity_australia
    rw [evalBGP_eq_nil_of_no_pred _ _ .hasWorkHours hwork
      ⟨⟨.v "measurement", .hasWorkHours, .v "workHours"⟩, by decide, rfl⟩]
    rfl

/-- A well-formed sample row (user 1, country USA). -/
def rowA : Row :=
  ⟨1, .cint 25, "Male", "Engineer", "USA", "Anxiety", "Medium", "Yes",
    "High", "No", "Good", "No", "No", .cfloat 7, .cint 40, .cint 3,
    .cfloat 2⟩

/-- The three-row input of the country-normalization scenario:
countries USA, India, USA. -/
def c4rows : List Row :=
  [rowA, { rowA with User_ID := 2, Country := "India" },
    { rowA with User_ID := 3, Country := "USA" }]

/-- C4: on rows with countries USA, India, USA the country map is exactly
USA to 1 and India to 2, two Person entities link to `country/1` and one to
`country/2`. -/
theorem claim_C4 :
    (genRun c4rows).country_map = [("USA", 1), ("India", 2)]
    ∧ ((genAbox c4rows).filter (fun t =>
        decide (t.p = Pred.hasCountry)
          && decide (t.o = Obj.u (Uri.country 1)))).map Triple.s
      = [Uri.user 1, Uri.user 3]
    ∧ ((genAbox c4rows).filter (fun t =>
        decide (t.p = Pred.hasCountry)
          && decide (t.o = Obj.u (Uri.country 2)))).map Triple.s
      = [Uri.user 2] := by
  decide

/-- The malformed-age row used to refute C6. -/
def badAgeRow : Row := { rowA with Age := .cstr "abc" }

/-- C6 counterexample: a row whose age cell is the non-numeric string
`"abc"` does not abort generation; the run completes, stores the value as an
ill-typed integer literal, and produces a graph of the same size a
well-formed row yields.  There is no DataFormatError anywhere in the code. -/
theorem claim_C6_counterexample :
    (⟨.user 1, .hasAge, .lit (.ill "abc" .xint)⟩ : Triple)
      ∈ genAbox [badAgeRow]
    ∧ (genAbox [badAgeRow]).length = (genAbox [rowA]).length := by
  decide

/-- C6 amended: the generator never fails on a malformed numeric field; for
every input and every row, each raw numeric cell — age, sleep hours, work
hours, physical-activity hours, social-media usage — is embedded as-is as a
literal of its declared datatype (well-typed when the cell parses, ill-typed
otherwise), and the row's entire triple block is still emitted, so the run
completes with full output. -/
theorem claim_C6 (rows : List Row) (i : Nat) (h : i < rows.length) :
    (⟨.user rows[i].User_ID, .hasAge, .lit (mkLit rows[i].Age .xint)⟩ : Triple)
      ∈ genAbox rows
    ∧ (⟨.measurement rows[i].User_ID, .hasSleepHours,
        .lit (mkLit rows[i].Sleep_Hours .xfloat)⟩ : Triple) ∈ genAbox rows
    ∧ (⟨.measurement rows[i].User_ID, .hasWorkHours,
        .lit (mkLit rows[i].Work_Hours .xint)⟩ : Triple) ∈ genAbox rows
    ∧ (⟨.measurement rows[i].User_ID, .hasPhysicalActivityHours,
        .lit (mkLit rows[i].Physical_Activity_Hours .xint)⟩ : Triple)
      ∈ genAbox rows
    ∧ (⟨.measurement rows[i].User_ID, .hasSocialMediaUsage,
        .lit (mkLit rows[i].Social_Media_Usage .xfloat)⟩ : Triple)
      ∈ genAbox rows
    ∧ ∀ t ∈ rowTriples ((rows.take i).foldl genStep initState) rows[i],
        t ∈ genAbox rows := by
  refine ⟨?_, ?_, ?_, ?_, ?_,
    fun t ht => mem_genAbox_of_mem_rowTriples h ht⟩
  all_goals
    apply mem_genAbox_of_mem_rowTriples h
    unfold rowTriples
    simp

theorem claim_C6_witness :
    (⟨.user 1, .hasAge, .lit (.ill "abc" .xint)⟩ : Triple)
      ∈ genAbox [badAgeRow]
    ∧ (⟨.measurement 1, .hasSleepHours, .lit (.ill "oops" .xfloat)⟩ : Triple)
      ∈ genAbox [{ badAgeRow with Sleep_Hours := .cstr "oops" }] :=
  ⟨(claim_C6 [badAgeRow] 0 (by decide)).1,
    (claim_C6 [{ badAgeRow with Sleep_Hours := .cstr "oops" }] 0
      (by decide)).2.1⟩

/-- The three-row input of the roll-up scenario: (Australia, 7.0),
(Australia, 8.0), (USA, 6.0). -/
def c9rows : List Row :=
  [{ rowA with Country := "Australia" },
    { rowA with User_ID := 2, Country := "Australia", Sleep_Hours := .cfloat 8 },
    { rowA with User_ID := 3, Country := "USA", Sleep_Hours := .cfloat 6 }]

unseal Rat.mul Rat.inv Rat.add in
/-- C9: on the scenario rows, the roll-up query yields exactly two rows,
Australia with average 7.5 and USA with average 6.0, in alphabetical order
of the country label. -/
theorem claim_C9 :
    roll_up_sleep_by_country (benchGraph c9rows)
      = [("Australia", (15 : Rat) / 2), ("USA", (6 : Rat))] := by
  decide

theorem filterMap_ite {A B : Type} (f : A → Option B) (c : Prop)
    [Decidable c] (l1 l2 : List A) :
    List.filterMap f (if c then l1 else l2)
      = if c then List.filterMap f l1 else List.filterMap f l2 := by
  split <;> rfl

/-- MentalHealth instance id of a subject, if any. -/
def subMh : Uri → Option Nat
  | .mentalHealth k => some k
  | _ => none

/-- Lifestyle instance id of a subject, if any. -/
def subLs : Uri → Option Nat
  | .lifestyle k => some k
  | _ => none

/-- The MentalHealth instance ids occurring as subjects, in graph order. -/
def mhIds (g : List Triple) : List Nat := g.filterMap (fun t => subMh t.s)

/-- The Lifestyle instance ids occurring as subjects, in graph order. -/
def lsIds (g : List Triple) : List Nat := g.filterMap (fun t => subLs t.s)

theorem mhIds_rowTriples (st : GenState) (r : Row) :
    mhIds (rowTriples st r)
      = [st.mental_health_counter, st.mental_health_counter,
         st.mental_health_counter, st.mental_health_counter,
         st.mental_health_counter, st.mental_health_counter] := by
  cases hw : country_wd_map r.Country <;>
    simp [rowTriples, mhIds, dimTriples, countryTriples, hw, subMh,
      List.filterMap_append, filterMap_ite]

theorem lsIds_rowTriples (st : GenState) (r : Row) :
    lsIds (rowTriples st r)
      = [st.lifestyle_counter, st.lifestyle_counter,
         st.lifestyle_counter, st.lifestyle_counter] := by
  cases hw : country_wd_map r.Country <;>
    simp [rowTriples, lsIds, dimTriples, countryTriples, hw, subLs,
      List.filterMap_append, filterMap_ite]

theorem foldl_counters :
    ∀ (rows : List Row) (st : GenState),
      (rows.foldl genStep st).mental_health_counter
        = st.mental_health_counter + rows.length
      ∧ (rows.foldl genStep st).lifestyle_counter
        = st.lifestyle_counter + rows.length := by
  intro rows
  induction rows with
  | nil => intro st; exact ⟨rfl, rfl⟩
  | cons r rows ih =>
    intro st
    have h := ih (genStep st r)
    constructor
    · rw [List.foldl_cons, h.1]
      simp [genStep]
      omega
    · rw [List.foldl_cons, h.2]
      simp [genStep]
      omega

theorem dedup_step_reps6 {c : Nat} {acc : List Nat} (h : c ∉ acc) :
    [c, c, c, c, c, c].foldl
        (fun acc a => if a ∈ acc then acc else acc ++ [a]) acc
      = acc ++ [c] := by
  simp [h]

theorem dedup_step_reps4 {c : Nat} {acc : List Nat} (h : c ∉ acc) :
    [c, c, c, c].foldl
        (fun acc a => if a ∈ acc then acc else acc ++ [a]) acc
      = acc ++ [c] := by
  simp [h]

theorem not_mem_range'_self (c : Nat) (hc : 1 ≤ c) :
    c ∉ List.range' 1 (c - 1) := by
  intro h
  obtain ⟨i, hi, he⟩ := List.mem_range'.1 h
  omega

theorem range'_snoc (c : Nat) (hc : 1 ≤ c) :
    List.range' 1 (c - 1) ++ [c] = List.range' 1 c := by
  obtain ⟨d, rfl⟩ : ∃ d, c = d + 1 := ⟨c - 1, by omega⟩
  have h := List.range'_append_1 1 d 1
  rw [List.range'_one, Nat.add_comm 1 d] at h
  simpa using h

theorem genRun_ids (rows : List Row) :
    dedupFO (mhIds (genAbox rows)) = List.range' 1 rows.length
    ∧ dedupFO (lsIds (genAbox rows)) = List.range' 1 rows.length := by
  have key : ∀ (rows : List Row) (st : GenState),
      dedupFO (mhIds st.graph)
        = List.range' 1 (st.mental_health_counter - 1)
      → 1 ≤ st.mental_health_counter
      → dedupFO (lsIds st.graph) = List.range' 1 (st.lifestyle_counter - 1)
      → 1 ≤ st.lifestyle_counter
      → dedupFO (mhIds (rows.foldl genStep st).graph)
          = List.range' 1 ((rows.foldl genStep st).mental_health_counter - 1)
        ∧ dedupFO (lsIds (rows.foldl genStep st).graph)
          = List.range' 1 ((rows.foldl genStep st).lifestyle_counter - 1) := by
    intro rows
    induction rows with
    | nil => intro st h1 h2 h3 h4; exact ⟨h1, h3⟩
    | cons r rows ih =>
      intro st h1 h2 h3 h4
      rw [List.foldl_cons]
      refine ih (genStep st r) ?_ ?_ ?_ ?_
      · rw [show (genStep st r).graph = st.graph ++ rowTriples st r from rfl]
        unfold mhIds
        rw [List.filterMap_append]
        show dedupFO (mhIds st.graph ++ mhIds (rowTriples st r)) = _
        unfold dedupFO
        rw [List.foldl_append]
        rw [mhIds_rowTriples st r]
        show [_, _, _, _, _, _].foldl _ (dedupFO (mhIds st.graph)) = _
        rw [dedup_step_reps6 (by rw [h1]; exact not_mem_range'_self _ h2), h1,
          range'_snoc _ h2]
        rw [show (genStep st r).mental_health_counter
          = st.mental_health_counter + 1 from rfl]
        rfl
      · rw [show (genStep st r).mental_health_counter
          = st.mental_health_counter + 1 from rfl]
        omega
      · rw [show (genStep st r).graph = st.graph ++ rowTriples st r from rfl]
        unfold lsIds
        rw [List.filterMap_append]
        show dedupFO (lsIds st.graph ++ lsIds (rowTriples st r)) = _
        unfold dedupFO
        rw [List.foldl_append]
        rw [lsIds_rowTriples st r]
        show [_, _, _, _].foldl _ (dedupFO (lsIds st.graph)) = _
        rw [dedup_step_reps4 (by rw [h3]; exact not_mem_range'_self _ h4), h3,
          range'_snoc _ h4]
        rw [show (genStep st r).lifestyle_counter
          = st.lifestyle_counter + 1 from rfl]
        rfl
      · rw [show (genStep st r).lifestyle_counter
          = st.lifestyle_counter + 1 from rfl]
        omega
  have h := key rows initState rfl (by decide) rfl (by decide)
  have hc := foldl_counters rows initState
  unfold genAbox genRun
  constructor
  · rw [h.1, hc.1, show initState.mental_health_counter = 1 from rfl]
    first
    | rfl
    | (congr 1; omega)
  · rw [h.2, hc.2, show initState.lifestyle_counter = 1 from rfl]
    first
    | rfl
    | (congr 1; omega)

/-- C5: every run creates exactly one fresh MentalHealth and one fresh
Lifestyle instance per row, never deduplicated: the distinct MentalHealth
(resp. Lifestyle) subject ids are exactly `1..N` for `N` input rows, and the
instance of row `i` carries its type, its label (MentalHealth only, from the
row's condition column) and its links to the severity, consultation, stress
and medication (resp. diet, smoking, alcohol) dimension entities. -/
theorem claim_C5 (rows : List Row) :
    dedupFO (mhIds (genAbox rows)) = List.range' 1 rows.length
    ∧ dedupFO (lsIds (genAbox rows)) = List.range' 1 rows.length
    ∧ ∀ (i : Nat) (h : i < rows.length),
        (⟨.mentalHealth (i + 1), .rdfType, .u (.voc .MentalHealth)⟩ : Triple)
            ∈ genAbox rows
        ∧ (⟨.mentalHealth (i + 1), .rdfsLabel,
            .lit (.plain rows[i].Mental_Health_Condition)⟩ : Triple)
            ∈ genAbox rows
        ∧ (∃ k, (⟨.mentalHealth (i + 1), .hasSeverity,
            .u (.severity k)⟩ : Triple) ∈ genAbox rows)
        ∧ (∃ k, (⟨.mentalHealth (i + 1), .hasConsultationHistory,
            .u (.consultation k)⟩ : Triple) ∈ genAbox rows)
        ∧ (∃ k, (⟨.mentalHealth (i + 1), .hasStressLevel,
            .u (.stress k)⟩ : Triple) ∈ genAbox rows)
        ∧ (∃ k, (⟨.mentalHealth (i + 1), .hasMedicationUsage,
            .u (.medication k)⟩ : Triple) ∈ genAbox rows)
        ∧ (⟨.lifestyle (i + 1), .rdfType, .u (.voc .Lifestyle)⟩ : Triple)
            ∈ genAbox rows
        ∧ (∃ k, (⟨.lifestyle (i + 1), .hasDietQuality,
            .u (.diet k)⟩ : Triple) ∈ genAbox rows)
        ∧ (∃ k, (⟨.lifestyle (i + 1), .hasSmokingHabit,
            .u (.smoking k)⟩ : Triple) ∈ genAbox rows)
        ∧ (∃ k, (⟨.lifestyle (i + 1), .hasAlcoholConsumption,
            .u (.alcohol k)⟩ : Triple) ∈ genAbox rows) := by
  refine ⟨(genRun_ids rows).1, (genRun_ids rows).2, ?_⟩
  intro i h
  have hcnt : ((rows.take i).foldl genStep initState).mental_health_counter
      = i + 1 := by
    have h1 := (foldl_counters (rows.take i) initState).1
    have h2 := List.length_take i rows
    rw [show initState.mental_health_counter = 1 from rfl] at h1
    omega
  have hls : ((rows.take i).foldl genStep initState).lifestyle_counter
      = i + 1 := by
    have h1 := (foldl_counters (rows.take i) initState).2
    have h2 := List.length_take i rows
    rw [show initState.lifestyle_counter = 1 from rfl] at h1
    omega
  refine ⟨?_, ?_,
    ⟨dimId ((rows.take i).foldl genStep initState).severity_map
      rows[i].Severity, ?_⟩,
    ⟨dimId ((rows.take i).foldl genStep initState).consultation_map
      rows[i].Consultation_History, ?_⟩,
    ⟨dimId ((rows.take i).foldl genStep initState).stress_map
      rows[i].Stress_Level, ?_⟩,
    ⟨dimId ((rows.take i).foldl genStep initState).medication_map
      rows[i].Medication_Usage, ?_⟩,
    ?_,
    ⟨dimId ((rows.take i).foldl genStep initState).diet_map
      rows[i].Diet_Quality, ?_⟩,
    ⟨dimId ((rows.take i).foldl genStep initState).smoking_map
      rows[i].Smoking_Habit, ?_⟩,
    ⟨dimId ((rows.take i).foldl genStep initState).alcohol_map
      rows[i].Alcohol_Consumption, ?_⟩⟩
  all_goals
    apply mem_genAbox_of_mem_rowTriples h
    first
    | (rw [← hcnt]; simp [rowTriples, dimTriples, countryTriples]; done)
    | (rw [← hls]; simp [rowTriples, dimTriples, countryTriples]; done)

theorem claim_C5_witness :
    (⟨.mentalHealth 1, .rdfType, .u (.voc .MentalHealth)⟩ : Triple)
      ∈ genAbox [rowA] :=
  ((claim_C5 [rowA]).2.2 0 (by decide)).1

/-- One benchmark record: the query's name and its result row count.
Wall-clock execution time is real time and is not modelled; no claim
depends on its value. -/
structure BenchEntry where
  query_name : String
  row_count : Nat
deriving DecidableEq

/-- The `measure_query_time` function, with the external query engine's
possible failure made explicit: `graph.query` may raise (for example on a
type mismatch), and the exception propagates, else the record with the
result's row count is produced. -/
def measure_query_time (g : List Triple) (query_name : String)
    (q : List Triple → Except String (List Env)) : Except String BenchEntry :=
  match q g with
  | .error e => .error e
  | .ok res => .ok ⟨query_name, res.length⟩

/-- The benchmark loop (`for name, q in queries.items():
benchmarks.append(measure_query_time(...))`) with Python exception
propagation: an Except-monad traversal that stops at the first error. -/
def runBenchmarks
    (queries : List (String × (List Triple → Except String (List Env))))
    (g : List Triple) : Except String (List BenchEntry) :=
  queries.mapM (fun nq => measure_query_time g nq.1 nq.2)

/-- A query runner that fails, as an engine type error would. -/
def failingQuery : List Triple → Except String (List Env) :=
  fun _ => .error "TypeError"

/-- A query runner that succeeds, evaluating the roll-up patterns. -/
def okQuery : List Triple → Except String (List Env) :=
  fun g => .ok (evalBGP g rollUpPats)

/-- C7 counterexample: when the first catalog query fails, the whole
benchmark run aborts with that error; the output is not a per-query report,
the failing query's entry is not marked failed, and the remaining query is
never reflected in any result. -/
theorem claim_C7_counterexample :
    runBenchmarks
      [("roll_up_sleep_by_country", failingQuery),
       ("drill_down_work_by_country_gender", okQuery)] []
      = .error "TypeError" := rfl

/-- C7 amended: a failing query aborts the entire benchmark loop with its
error; there is no per-query failure reporting and no later query is
executed. -/
theorem claim_C7 (name : String)
    (f : List Triple → Except String (List Env))
    (rest : List (String × (List Triple → Except String (List Env))))
    (g : List Triple) (e : String) (h : f g = .error e) :
    runBenchmarks ((name, f) :: rest) g = .error e := by
  unfold runBenchmarks
  rw [List.mapM_cons]
  simp only [measure_query_time, h]
  rfl

theorem claim_C7_witness :
    runBenchmarks [("roll_up_sleep_by_country", failingQuery)] []
      = .error "TypeError" :=
  claim_C7 "roll_up_sleep_by_country" failingQuery [] [] "TypeError" rfl

/-- A store of graphs, indexed by allocation order: the mutable rdflib
graphs the benchmark script holds. -/
abbrev World := List (List Triple)

/-- Read a graph from the store. -/
def getGraphW (w : World) (gid : Nat) : List Triple := w.getD gid []

/-- `g.add(t)`: append a triple to one graph of the store. -/
def addTripleW (w : World) (gid : Nat) (t : Triple) : World :=
  w.set gid (getGraphW w gid ++ [t])

/-- `Graph()`: allocate a fresh empty graph, returning its id. -/
def newGraphW (w : World) : Nat × World := (w.length, w ++ [[]])

/-- `create_subsampled_graph` at store level: allocate `sub_g = Graph()`,
iterate the input graph and `sub_g.add` each kept triple; only the fresh
graph is ever the target of an add. -/
def create_subsampled_graphW (w : World) (gid : Nat) (max_user_id : Nat) :
    Nat × World :=
  let sub := (newGraphW w).1
  let w1 := (newGraphW w).2
  (sub, (getGraphW w1 gid).foldl
    (fun acc t =>
      if keepTriple max_user_id t then addTripleW acc sub t else acc) w1)

/-- `measure_query_time` at store level: it only calls `graph.query`, a
read, so the store is returned unchanged. -/
def measure_query_timeW {α : Type} (w : World) (gid : Nat)
    (query_name : String) (q : List Triple → List α) : BenchEntry × World :=
  (⟨query_name, (q (getGraphW w gid)).length⟩, w)

theorem getGraphW_addTripleW_ne {w : World} {i j : Nat} {t : Triple}
    (h : i ≠ j) : getGraphW (addTripleW w i t) j = getGraphW w j := by
  unfold getGraphW addTripleW
  rw [List.getD_eq_getElem?_getD, List.getD_eq_getElem?_getD,
    List.getElem?_set_ne h]

theorem getGraphW_addTripleW_self {w : World} {i : Nat} {t : Triple}
    (h : i < w.length) :
    getGraphW (addTripleW w i t) i = getGraphW w i ++ [t] := by
  unfold getGraphW addTripleW
  rw [List.getD_eq_getElem?_getD, List.getElem?_set_self h]
  rfl

theorem subsample_loopW (T sub gid : Nat) (hne : gid ≠ sub) :
    ∀ (l : List Triple) (acc : World), sub < acc.length →
      (getGraphW (l.foldl
          (fun acc t =>
            if keepTriple T t then addTripleW acc sub t else acc) acc) gid
        = getGraphW acc gid)
      ∧ (getGraphW (l.foldl
          (fun acc t =>
            if keepTriple T t then addTripleW acc sub t else acc) acc) sub
        = getGraphW acc sub ++ l.filter (keepTriple T))
      ∧ (l.foldl
          (fun acc t =>
            if keepTriple T t then addTripleW acc sub t else acc) acc).length
        = acc.length := by
  intro l
  induction l with
  | nil => intro acc h; exact ⟨rfl, by simp, rfl⟩
  | cons t l ih =>
    intro acc h
    rw [List.foldl_cons, List.filter_cons]
    by_cases hk : keepTriple T t
    · rw [if_pos hk, if_pos hk]
      have hlen : (addTripleW acc sub t).length = acc.length := by
        unfold addTripleW
        exact List.length_set acc sub _
      obtain ⟨h1, h2, h3⟩ := ih (addTripleW acc sub t) (by omega)
      refine ⟨?_, ?_, ?_⟩
      · rw [h1,
          getGraphW_addTripleW_ne (show sub ≠ gid from fun hh => hne hh.symm)]
      · rw [h2, getGraphW_addTripleW_self h]
        simp
      · rw [h3, hlen]
    · rw [if_neg hk, if_neg hk]
      exact ih acc h

/-- C10: the benchmark stage never modifies the loaded graph — subsampling
builds only the freshly allocated graph (the input graph's triples are
unchanged, and the fresh graph holds exactly the kept triples), and
measuring a query leaves the whole store unchanged. -/
theorem claim_C10 (w : World) (gid : Nat) (T : Nat) (h : gid < w.length) :
    getGraphW (create_subsampled_graphW w gid T).2 gid = getGraphW w gid
    ∧ getGraphW (create_subsampled_graphW w gid T).2
        (create_subsampled_graphW w gid T).1
      = (getGraphW w gid).filter (keepTriple T)
    ∧ ∀ (α : Type) (query_name : String) (q : List Triple → List α),
        (measure_query_timeW w gid query_name q).2 = w := by
  have hne : gid ≠ w.length := by omega
  have hg1 : getGraphW (w ++ [[]]) gid = getGraphW w gid := by
    unfold getGraphW
    rw [List.getD_eq_getElem?_getD, List.getD_eq_getElem?_getD,
      List.getElem?_append_left h]
  have hgs : getGraphW (w ++ [[]]) w.length = [] := by
    unfold getGraphW
    rw [List.getD_eq_getElem?_getD, List.getElem?_concat_length]
    rfl
  have hlen : w.length < (w ++ [[]]).length := by
    simp
  obtain ⟨h1, h2, _⟩ := subsample_loopW T w.length gid hne
    (getGraphW (w ++ [[]]) gid) (w ++ [[]]) hlen
  refine ⟨?_, ?_, fun α name q => rfl⟩
  · show getGraphW _ gid = _
    rw [show (create_subsampled_graphW w gid T).2
        = (getGraphW (w ++ [[]]) gid).foldl
            (fun acc t =>
              if keepTriple T t then addTripleW acc w.length t else acc)
            (w ++ [[]]) from rfl]
    rw [h1, hg1]
  · rw [show (create_subsampled_graphW w gid T).2
        = (getGraphW (w ++ [[]]) gid).foldl
            (fun acc t =>
              if keepTriple T t then addTripleW acc w.length t else acc)
            (w ++ [[]]) from rfl,
      show (create_subsampled_graphW w gid T).1 = w.length from rfl]
    rw [h2, hgs, hg1]
    rfl

theorem claim_C10_witness :
    getGraphW (create_subsampled_graphW
        [[⟨.user 1, .rdfType, .u (.voc .Person)⟩]] 0 5).2 0
      = [⟨.user 1, .rdfType, .u (.voc .Person)⟩] := by
  have h := claim_C10 [[⟨.user 1, .rdfType, .u (.voc .Person)⟩]] 0 5
    (by decide)
  rw [h.1]
  rfl

/-- Full URI string of a predicate. -/
def predStr : Pred → List Char
  | .rdfType => "http://www.w3.org/1999/02/22-rdf-syntax-ns#type".data
  | .rdfsLabel => "http://www.w3.org/2000/01/rdf-schema#label".data
  | .rdfsComment => "http://www.w3.org/2000/01/rdf-schema#comment".data
  | .rdfsDomain => "http://www.w3.org/2000/01/rdf-schema#domain".data
  | .rdfsRange => "http://www.w3.org/2000/01/rdf-schema#range".data
  | .owlEquivalentProperty => "http://www.w3.org/2002/07/owl#equivalentProperty".data
  | .owlSameAs => "http://www.w3.org/2002/07/owl#sameAs".data
  | .skosInScheme => "http://www.w3.org/2004/02/skos/core#inScheme".data
  | .skosPrefLabel => "http://www.w3.org/2004/02/skos/core#prefLabel".data
  | .qbMeasure => "http://purl.org/linked-data/cube#measure".data
  | .hasAge => "http://example.org/mental_health#hasAge".data
  | .hasGender => "http://example.org/mental_health#hasGender".data
  | .hasOccupation => "http://example.org/mental_health#hasOccupation".data
  | .hasCountry => "http://example.org/mental_health#hasCountry".data
  | .hasMentalHealth => "http://example.org/mental_health#hasMentalHealth".data
  | .hasSeverity => "http://example.org/mental_health#hasSeverity".data
  | .hasConsultationHistory => "http://example.org/mental_health#hasConsultationHistory".data
  | .hasStressLevel => "http://example.org/mental_health#hasStressLevel".data
  | .hasMedicationUsage => "http://example.org/mental_health#hasMedicationUsage".data
  | .hasLifestyle => "http://example.org/mental_health#hasLifestyle".data
  | .hasDietQuality => "http://example.org/mental_health#hasDietQuality".data
  | .hasSmokingHabit => "http://example.org/mental_health#hasSmokingHabit".data
  | .hasAlcoholConsumption => "http://example.org/mental_health#hasAlcoholConsumption".data
  | .hasSleepHours => "http://example.org/mental_health#hasSleepHours".data
  | .hasWorkHours => "http://example.org/mental_health#hasWorkHours".data
  | .hasPhysicalActivityHours => "http://example.org/mental_health#hasPhysicalActivityHours".data
  | .hasSocialMediaUsage => "http://example.org/mental_health#hasSocialMediaUsage".data
  | .exHasMeasurement => "http://example.org/ontology#hasMeasurement".data

/-- Full URI string of a declared literal datatype. -/
def dtStr : LDt → List Char
  | .xint => "http://www.w3.org/2001/XMLSchema#integer".data
  | .xfloat => "http://www.w3.org/2001/XMLSchema#float".data

/-- Decimal lexical form of an integer. -/
def intLex (n : Int) : List Char :=
  if n < 0 then '-' :: natDigits n.natAbs else natDigits n.toNat

/-- Literal annotation in serialized form: none, a language tag, or a
datatype URI. -/
inductive SDt
  | plainT
  | langT (tag : String)
  | dtT (d : String)
deriving DecidableEq

/-- A serialized RDF term in object position (URIs and literals; a blank
node constructor exists so its absence in generated graphs is meaningful —
re-parsing does not preserve blank node identity, so they are not given a
parse). -/
inductive SObj
  | su (u : String)
  | slit (lex : String) (tag : SDt)
  | sbnode (n : Nat)
deriving DecidableEq

/-- A triple at the serialization level: URIs are their strings, literals
their lexical form plus annotation.  RDF graph equality is term-by-term
equality at this level. -/
structure STriple where
  ss : String
  sp : String
  so : SObj
deriving DecidableEq

/-- Serialized form of a literal. -/
def renderLit : Lit → SObj
  | .typedInt n => .slit (String.mk (intLex n)) (.dtT (String.mk (dtStr .xint)))
  | .typedFloat q => .slit (String.mk (ratLex q)) (.dtT (String.mk (dtStr .xfloat)))
  | .plain s => .slit s .plainT
  | .lang s tag => .slit s (.langT tag)
  | .ill lex d => .slit lex (.dtT (String.mk (dtStr d)))

/-- Serialized form of an object term. -/
def renderObj : Obj → SObj
  | .u x => .su (String.mk (uriStr x))
  | .lit l => renderLit l
  | .bnode n => .sbnode n

/-- Serialized form of a triple. -/
def renderTriple (t : Triple) : STriple :=
  ⟨String.mk (uriStr t.s), String.mk (predStr t.p), renderObj t.o⟩

/-- Serialized form of a graph. -/
def renderG (g : List Triple) : List STriple := g.map renderTriple

/-- Escaping of one character inside a quoted literal. -/
def escapeChar (c : Char) : List Char :=
  if c = '\\' then ['\\', '\\']
  else if c = '\"' then ['\\', '\"']
  else if c = '\n' then ['\\', 'n']
  else [c]

/-- Escaping of a literal's lexical form. -/
def escapeStr (l : List Char) : List Char := l.flatMap escapeChar

/-- Decoding of one escape sequence. -/
def decodeEsc : Char → Option Char
  | '\\' => some '\\'
  | '\"' => some '\"'
  | 'n' => some '\n'
  | _ => none

/-- Scan a quoted literal body up to its closing quote, undoing escapes;
returns the decoded content and the input after the quote. -/
def unescapeAux : List Char → Option (List Char × List Char)
  | [] => none
  | c :: rest =>
    if c = '\\' then
      match rest with
      | [] => none
      | c2 :: rest2 =>
        match decodeEsc c2, unescapeAux rest2 with
        | some d, some (s, r) => some (d :: s, r)
        | _, _ => none
    else if c = '\"' then some ([], rest)
    else
      match unescapeAux rest with
      | some (s, r) => some (c :: s, r)
      | none => none

/-- Scan up to a closing angle bracket. -/
def takeUntilGt : List Char → Option (List Char × List Char)
  | [] => none
  | c :: rest =>
    if c = '>' then some ([], rest)
    else
      match takeUntilGt rest with
      | some (s, r) => some (c :: s, r)
      | none => none

/-- Scan up to (not including) the next space. -/
def takeUntilSpace : List Char → List Char × List Char
  | [] => ([], [])
  | c :: rest =>
    if c = ' ' then ([], c :: rest)
    else
      let p := takeUntilSpace rest
      (c :: p.1, p.2)

/-- Serialized form of a literal annotation. -/
def renderSDt : SDt → List Char
  | .plainT => []
  | .langT tag => '@' :: tag.data
  | .dtT d => '^' :: '^' :: '<' :: (d.data ++ ['>'])

/-- Serialized form of an object term as characters. -/
def lineOfObj : SObj → List Char
  | .su u => '<' :: (u.data ++ ['>'])
  | .slit lex tag => '\"' :: (escapeStr lex.data ++ '\"' :: renderSDt tag)
  | .sbnode n => '_' :: ':' :: 'b' :: natDigits n

/-- Modelled from the spec: the external Turtle serializer, as one
N-Triples-style statement line per triple (N-Triples is a subset of Turtle;
the spec treats serialization as a black box that writes the graph's triples
as Turtle text). -/
def lineOf (t : STriple) : List Char :=
  '<' :: (t.ss.data ++ '>' :: ' ' :: '<'
    :: (t.sp.data ++ '>' :: ' ' :: (lineOfObj t.so ++ [' ', '.'])))

/-- Parse a literal annotation. -/
def parseSDt : List Char → Option (SDt × List Char)
  | '@' :: rest =>
    some (.langT (String.mk (takeUntilSpace rest).1), (takeUntilSpace rest).2)
  | '^' :: '^' :: '<' :: rest =>
    match takeUntilGt rest with
    | some (d, r) => some (.dtT (String.mk d), r)
    | none => none
  | rest => some (.plainT, rest)

/-- Parse an object term. -/
def parseObj : List Char → Option (SObj × List Char)
  | '<' :: rest =>
    match takeUntilGt rest with
    | some (u, r) => some (.su (String.mk u), r)
    | none => none
  | '\"' :: rest =>
    match unescapeAux rest with
    | some (lex, r1) =>
      match parseSDt r1 with
      | some (dt, r2) => some (.slit (String.mk lex) dt, r2)
      | none => none
    | none => none
  | _ => none

/-- Parse one statement line. -/
def parseLine (l : List Char) : Option STriple :=
  match l with
  | '<' :: rest =>
    match takeUntilGt rest with
    | some (s, ' ' :: '<' :: r2) =>
      match takeUntilGt r2 with
      | some (p, ' ' :: r4) =>
        match parseObj r4 with
        | some (o, [' ', '.']) => some ⟨String.mk s, String.mk p, o⟩
        | _ => none
      | _ => none
    | _ => none
  | _ => none

/-- Join statement lines with newlines. -/
def serializeLines : List (List Char) → List Char
  | [] => []
  | [l] => l
  | l :: ls => l ++ '\n' :: serializeLines ls

/-- Split a text into lines. -/
def splitLines : List Char → List (List Char)
  | [] => [[]]
  | c :: rest =>
    if c = '\n' then [] :: splitLines rest
    else
      match splitLines rest with
      | [] => [[c]]
      | x :: xs => (c :: x) :: xs

/-- Serialize a graph to text. -/
def serializeG (ts : List STriple) : List Char :=
  serializeLines (ts.map lineOf)

/-- Modelled from the spec: the external Turtle parser — split into
statement lines (blank lines ignored) and parse each. -/
def parseG (l : List Char) : Option (List STriple) :=
  ((splitLines l).filter (fun x => !x.isEmpty)).mapM parseLine

/-- Characters legal in a serialized URI: no closing bracket, no newline. -/
def okStrB (l : List Char) : Bool := l.all (fun c => !(c = '>') && !(c = '\n'))

/-- Characters legal in a language tag: no space, no newline. -/
def okTagB (l : List Char) : Bool := l.all (fun c => !(c = ' ') && !(c = '\n'))

/-- Well-formedness of a serialized object term. -/
def wfSObj : SObj → Bool
  | .su u => okStrB u.data
  | .slit _ tag =>
    match tag with
    | .plainT => true
    | .langT tg => okTagB tg.data
    | .dtT d => okStrB d.data
  | .sbnode _ => false

/-- Well-formedness of a serialized triple. -/
def wfSTriple (t : STriple) : Bool :=
  okStrB t.ss.data && okStrB t.sp.data && wfSObj t.so

/-- Blank-node test on objects. -/
def isBNodeObj : Obj → Bool
  | .bnode _ => true
  | _ => false

theorem strMkData (s : String) : String.mk s.data = s := by
  cases s
  rfl

theorem takeUntilGt_round (s : List Char) (hs : '>' ∉ s) (r : List Char) :
    takeUntilGt (s ++ '>' :: r) = some (s, r) := by
  induction s with
  | nil => rfl
  | cons c cs ih =>
    simp only [List.mem_cons, not_or] at hs
    have hc : ¬(c = '>') := fun hh => hs.1 hh.symm
    rw [List.cons_append]
    simp only [takeUntilGt, ih hs.2]
    rw [if_neg hc]

theorem takeUntilSpace_round (s : List Char) (hs : ' ' ∉ s) (r : List Char) :
    takeUntilSpace (s ++ ' ' :: r) = (s, ' ' :: r) := by
  induction s with
  | nil => rfl
  | cons c cs ih =>
    simp only [List.mem_cons, not_or] at hs
    have hc : ¬(c = ' ') := fun hh => hs.1 hh.symm
    rw [List.cons_append]
    simp only [takeUntilSpace, ih hs.2]
    rw [if_neg hc]

theorem unescapeAux_cons (c : Char) (rest : List Char) :
    unescapeAux (c :: rest)
      = if c = '\\' then
          match rest with
          | [] => none
          | c2 :: rest2 =>
            match decodeEsc c2, unescapeAux rest2 with
            | some d, some (s, r) => some (d :: s, r)
            | _, _ => none
        else if c = '\"' then some ([], rest)
        else
          match unescapeAux rest with
          | some (s, r) => some (c :: s, r)
          | none => none := by
  rw [unescapeAux.eq_def]

theorem unescape_round (s : List Char) (r : List Char) :
    unescapeAux (escapeStr s ++ '\"' :: r) = some (s, r) := by
  induction s with
  | nil =>
    show unescapeAux ('\"' :: r) = some ([], r)
    rw [unescapeAux_cons]
    simp
  | cons c cs ih =>
    rw [show escapeStr (c :: cs) = escapeChar c ++ escapeStr cs from rfl,
      List.append_assoc]
    by_cases h1 : c = '\\'
    · subst h1
      simp [escapeChar, unescapeAux_cons, decodeEsc, ih]
    · by_cases h2 : c = '\"'
      · subst h2
        simp [escapeChar, unescapeAux_cons, decodeEsc, ih]
      · by_cases h3 : c = '\n'
        · subst h3
          simp [escapeChar, unescapeAux_cons, decodeEsc, ih]
        · simp [escapeChar, unescapeAux_cons, h1, h2, h3, ih]

theorem escapeChar_noNl (c : Char) :
    (escapeChar c).all (fun d => !(d = '\n')) = true := by
  unfold escapeChar
  split
  · decide
  · split
    · decide
    · split
      · decide
      · next h =>
        simp only [List.all_cons, List.all_nil, Bool.and_true]
        simpa using h

theorem escapeStr_noNl (s : List Char) :
    (escapeStr s).all (fun d => !(d = '\n')) = true := by
  induction s with
  | nil => rfl
  | cons c cs ih =>
    rw [show escapeStr (c :: cs) = escapeChar c ++ escapeStr cs from rfl,
      List.all_append, escapeChar_noNl, ih]
    rfl

theorem noNl_of_okStrB {l : List Char} (h : okStrB l = true) :
    l.all (fun c => !(c = '\n')) = true := by
  rw [okStrB, List.all_eq_true] at h
  rw [List.all_eq_true]
  intro c hc
  have := h c hc
  simp only [Bool.and_eq_true] at this
  exact this.2

theorem noNl_of_okTagB {l : List Char} (h : okTagB l = true) :
    l.all (fun c => !(c = '\n')) = true := by
  rw [okTagB, List.all_eq_true] at h
  rw [List.all_eq_true]
  intro c hc
  have := h c hc
  simp only [Bool.and_eq_true] at this
  exact this.2

theorem renderSDt_noNl (tag : SDt) (h : wfSObj (.slit "" tag) = true) :
    (renderSDt tag).all (fun c => !(c = '\n')) = true := by
  cases tag with
  | plainT => rfl
  | langT tg =>
    simp only [renderSDt, List.all_cons, Bool.and_eq_true]
    exact ⟨by decide, noNl_of_okTagB (by simpa [wfSObj] using h)⟩
  | dtT d =>
    simp only [renderSDt, List.all_cons, List.all_append, Bool.and_eq_true]
    refine ⟨by decide, by decide, by decide, ?_, by decide⟩
    exact noNl_of_okStrB (by simpa [wfSObj] using h)

theorem lineOfObj_noNl (so : SObj) (h : wfSObj so = true) :
    (lineOfObj so).all (fun c => !(c = '\n')) = true := by
  cases so with
  | su u =>
    simp only [lineOfObj, List.all_cons, List.all_append, Bool.and_eq_true]
    exact ⟨by decide, noNl_of_okStrB (by simpa [wfSObj] using h), by decide⟩
  | slit lex tag =>
    simp only [lineOfObj, List.all_cons, List.all_append, Bool.and_eq_true]
    refine ⟨by decide, escapeStr_noNl lex.data, by decide, ?_⟩
    exact renderSDt_noNl tag (by simpa [wfSObj] using h)
  | sbnode n => exact absurd h (by simp [wfSObj])

theorem lineOf_noNl (t : STriple) (h : wfSTriple t = true) :
    (lineOf t).all (fun c => !(c = '\n')) = true := by
  obtain ⟨ss, sp, so⟩ := t
  simp only [wfSTriple, Bool.and_eq_true] at h
  simp only [lineOf, List.all_cons, List.all_append, Bool.and_eq_true]
  exact ⟨by decide, noNl_of_okStrB h.1.1, by decide, by decide, by decide,
    noNl_of_okStrB h.1.2, by decide, by decide,
    lineOfObj_noNl so h.2, by decide, by decide⟩

theorem splitLines_noNl (l : List Char)
    (h : l.all (fun c => !(c = '\n')) = true) : splitLines l = [l] := by
  induction l with
  | nil => rfl
  | cons c cs ih =>
    simp only [List.all_cons, Bool.and_eq_true] at h
    have hc : ¬(c = '\n') := by simpa using h.1
    simp only [splitLines, if_neg hc, ih h.2]

theorem splitLines_append (l : List Char)
    (h : l.all (fun c => !(c = '\n')) = true) (r : List Char) :
    splitLines (l ++ '\n' :: r) = l :: splitLines r := by
  induction l with
  | nil => rfl
  | cons c cs ih =>
    simp only [List.all_cons, Bool.and_eq_true] at h
    have hc : ¬(c = '\n') := by simpa using h.1
    rw [List.cons_append]
    simp only [splitLines, if_neg hc, ih h.2]

theorem splitLines_serializeLines :
    ∀ (ls : List (List Char)), ls ≠ []
      → (∀ l ∈ ls, l.all (fun c => !(c = '\n')) = true)
      → splitLines (serializeLines ls) = ls := by
  intro ls
  induction ls with
  | nil => intro h _; exact absurd rfl h
  | cons l ls ih =>
    intro _ hall
    cases ls with
    | nil => exact splitLines_noNl l (hall l (by simp))
    | cons l2 ls2 =>
      show splitLines (l ++ '\n' :: serializeLines (l2 :: ls2)) = _
      rw [splitLines_append l (hall l (by simp)),
        ih (by simp) (fun x hx => hall x (by simp [hx]))]

/-- Well-formedness of a literal annotation. -/
def wfSDtB : SDt → Bool
  | .plainT => true
  | .langT tg => okTagB tg.data
  | .dtT d => okStrB d.data

theorem wfSObj_slit (lex : String) (tag : SDt) :
    wfSObj (.slit lex tag) = wfSDtB tag := by
  cases tag <;> rfl

theorem okStr_no_gt {l : List Char} (h : okStrB l = true) : '>' ∉ l := by
  rw [okStrB, List.all_eq_true] at h
  intro hm
  exact absurd (h _ hm) (by decide)

theorem okTag_no_space {l : List Char} (h : okTagB l = true) : ' ' ∉ l := by
  rw [okTagB, List.all_eq_true] at h
  intro hm
  exact absurd (h _ hm) (by decide)

theorem parseSDt_round (tag : SDt) (h : wfSDtB tag = true) :
    parseSDt (renderSDt tag ++ [' ', '.']) = some (tag, [' ', '.']) := by
  cases tag with
  | plainT => rfl
  | langT tg =>
    show parseSDt ('@' :: (tg.data ++ [' ', '.'])) = _
    have hsp : ' ' ∉ tg.data := okTag_no_space (by simpa [wfSDtB] using h)
    simp only [parseSDt, takeUntilSpace_round tg.data hsp ['.'], strMkData]
  | dtT d =>
    show parseSDt ('^' :: '^' :: '<' :: ((d.data ++ ['>']) ++ [' ', '.'])) = _
    have hgt : '>' ∉ d.data := okStr_no_gt (by simpa [wfSDtB] using h)
    rw [List.append_assoc]
    simp only [parseSDt, List.singleton_append,
      takeUntilGt_round d.data hgt [' ', '.'], strMkData]

theorem parseObj_round (o : SObj) (h : wfSObj o = true) :
    parseObj (lineOfObj o ++ [' ', '.']) = some (o, [' ', '.']) := by
  cases o with
  | su u =>
    show parseObj ('<' :: ((u.data ++ ['>']) ++ [' ', '.'])) = _
    have hgt : '>' ∉ u.data := okStr_no_gt (by simpa [wfSObj] using h)
    rw [List.append_assoc]
    simp only [parseObj, List.singleton_append,
      takeUntilGt_round u.data hgt [' ', '.'], strMkData]
  | slit lex tag =>
    show parseObj
      ('\"' :: ((escapeStr lex.data ++ '\"' :: renderSDt tag) ++ [' ', '.']))
      = _
    rw [List.append_assoc]
    have htag : wfSDtB tag = true := by
      rw [← wfSObj_slit lex tag]
      exact h
    simp only [parseObj, List.cons_append,
      unescape_round lex.data (renderSDt tag ++ [' ', '.']),
      parseSDt_round tag htag, strMkData]
  | sbnode n => exact absurd h (by simp [wfSObj])

theorem parseLine_round (t : STriple) (h : wfSTriple t = true) :
    parseLine (lineOf t) = some t := by
  obtain ⟨ss, sp, so⟩ := t
  simp only [wfSTriple, Bool.and_eq_true] at h
  show parseLine ('<' :: (ss.data ++ '>' :: ' ' :: '<'
    :: (sp.data ++ '>' :: ' ' :: (lineOfObj so ++ [' ', '.'])))) = _
  simp only [parseLine, takeUntilGt_round ss.data (okStr_no_gt h.1.1),
    takeUntilGt_round sp.data (okStr_no_gt h.1.2), parseObj_round so h.2,
    strMkData]

theorem mapM_lineOf :
    ∀ (ts : List STriple),
      (∀ x ∈ ts, parseLine (lineOf x) = some x)
      → (ts.map lineOf).mapM parseLine = some ts := by
  intro ts
  induction ts with
  | nil => intro _; rfl
  | cons t ts ih =>
    intro h
    rw [List.map_cons, List.mapM_cons, h t (by simp),
      ih (fun x hx => h x (by simp [hx]))]
    rfl

theorem parseG_serializeG (ts : List STriple)
    (h : ∀ t ∈ ts, wfSTriple t = true) :
    parseG (serializeG ts) = some ts := by
  cases ts with
  | nil => rfl
  | cons t ts2 =>
    unfold parseG serializeG
    rw [splitLines_serializeLines ((t :: ts2).map lineOf) (by simp)
      (fun l hl => by
        obtain ⟨x, hx, rfl⟩ := List.mem_map.1 hl
        exact lineOf_noNl x (h x hx))]
    rw [List.filter_eq_self.2 (fun l hl => by
      obtain ⟨x, hx, rfl⟩ := List.mem_map.1 hl
      simp [lineOf])]
    exact mapM_lineOf (t :: ts2) (fun x hx => parseLine_round x (h x hx))

theorem natDigits_okStr (n : Nat) :
    (natDigits n).all (fun c => !(c = '>') && !(c = '\n')) = true := by
  rw [List.all_eq_true]
  intro c hc
  have hb := natDigits_toNat_bounds n c hc
  simp only [Bool.and_eq_true, Bool.not_eq_true', decide_eq_false_iff_not]
  refine ⟨fun hh => ?_, fun hh => ?_⟩ <;>
    (subst hh; exact absurd hb (by decide))

theorem okStrB_uriStr (s : Uri) : okStrB (uriStr s) = true := by
  have hd : ∀ (a : List Char) (n : Nat), okStrB a = true
      → okStrB (a ++ natDigits n) = true := by
    intro a n ha
    unfold okStrB at ha ⊢
    rw [List.all_append, ha, natDigits_okStr]
    rfl
  cases s
  case voc v => cases v <;> decide
  case wde w => cases w <;> decide
  all_goals exact hd _ _ (by decide)

theorem okStrB_predStr (p : Pred) : okStrB (predStr p) = true := by
  cases p <;> decide

theorem wf_renderTriple (t : Triple) (hobj : objOK t.o = true) :
    wfSTriple (renderTriple t) = true := by
  obtain ⟨s, p, o⟩ := t
  unfold wfSTriple renderTriple
  rw [show (String.mk (uriStr s)).data = uriStr s from rfl,
    show (String.mk (predStr p)).data = predStr p from rfl,
    okStrB_uriStr, okStrB_predStr]
  simp only [Bool.true_and]
  cases o with
  | u x =>
    show wfSObj (.su (String.mk (uriStr x))) = true
    simp only [wfSObj]
    exact okStrB_uriStr x
  | lit l =>
    cases l with
    | typedInt n =>
      show wfSObj (.slit (String.mk (intLex n))
        (.dtT (String.mk (dtStr .xint)))) = true
      rw [wfSObj_slit]
      decide
    | typedFloat q =>
      show wfSObj (.slit (String.mk (ratLex q))
        (.dtT (String.mk (dtStr .xfloat)))) = true
      rw [wfSObj_slit]
      decide
    | plain s2 => rfl
    | lang s2 tag => exact absurd hobj Bool.false_ne_true
    | ill lex d =>
      show wfSObj (.slit lex (.dtT (String.mk (dtStr d)))) = true
      rw [wfSObj_slit]
      cases d <;> decide
  | bnode n => exact absurd hobj Bool.false_ne_true

/-- C8: the generated instance graph has no blank nodes, and serializing it
to text and re-parsing that text reproduces exactly the same triples (at the
RDF term level: URI strings, literal lexical forms and annotations). -/
theorem claim_C8 (rows : List Row) :
    ((genAbox rows).all (fun t => !(isBNodeObj t.o))) = true
    ∧ parseG (serializeG (renderG (genAbox rows)))
      = some (renderG (genAbox rows)) := by
  have hobj : ∀ t ∈ genAbox rows, objOK t.o = true := by
    intro t ht
    have h2 := genAbox_triOK rows t ht
    unfold triOK at h2
    simp only [Bool.and_eq_true] at h2
    exact h2.2
  constructor
  · rw [List.all_eq_true]
    intro t ht
    have h2 := hobj t ht
    revert h2
    cases t.o with
    | u x => intro _; rfl
    | lit l => intro _; rfl
    | bnode n => intro h2; exact absurd h2 Bool.false_ne_true
  · apply parseG_serializeG
    intro st hst
    obtain ⟨t, ht, rfl⟩ := List.mem_map.1 hst
    exact wf_renderTriple t (hobj t ht)

end AddictionNexus












